import Mathlib

/-!
Shallow embedding of the synthesis-orchestration pipeline of the
`content-service` repository (Go), together with proofs of the spec's
testable properties.

Durations and timestamps are modelled as rationals (`ℚ`); the Go code uses
`float64`, but every claim under study is about exact control flow and
exact arithmetic identities, not rounding.  External collaborators
(OpenAI, ElevenLabs, ffmpeg/ffprobe, the JSON decoder of the standard
library) are modelled as oracle inputs: the repository's own logic is
translated literally, the collaborator outcomes are quantified over.
-/

set_option maxRecDepth 8192

namespace ContentService

/-- Outcome of a Go function call: a normal value, a returned `error`,
or a runtime panic. -/
inductive GoResult (α : Type) where
  | ok (val : α)
  | err
  | panicked
deriving Repr, DecidableEq

/-- Go struct `Segment` (src/unnamed/part_004 lines 28-32): a mood-tagged
interval of the narration timeline.  Go's field `End` is a Lean keyword,
so it is named `stop` here. -/
structure Segment where
  start : ℚ
  stop : ℚ
  mood : String
deriving Repr, DecidableEq

/-- `fallbackSegments` (src/unnamed/part_004 lines 99-112): chops `ttsDur`
into `n = ceil(ttsDur/22)` equal-length "neutral" slices.  `none` models
the Go panic of `make([]Segment, n)` when `n` is negative (only possible
for `ttsDur ≤ -22`, far outside every claim's domain `D > 0`).  When
`n = 0` the Go division `ttsDur / float64(n)` yields a non-panicking
junk value that is never used (the loop body runs zero times), matching
`ℚ`'s total division. -/
def fallbackSegments (ttsDur : ℚ) : Option (List Segment) :=
  let n : ℤ := ⌈ttsDur / 22⌉
  if n < 0 then none
  else
    let chunk : ℚ := ttsDur / (n : ℚ)
    some ((List.range n.toNat).map fun (i : ℕ) =>
      let start : ℚ := (i : ℚ) * chunk
      let e : ℚ := start + chunk
      { start := start, stop := if e > ttsDur then ttsDur else e, mood := "neutral" })

/-- Go `strings.TrimSpace` on the rune list of a string. -/
def trimSpace (s : List Char) : List Char :=
  ((s.dropWhile Char.isWhitespace).reverse.dropWhile Char.isWhitespace).reverse

/-- Index of the first occurrence of `c` (Go `strings.Index`), as an option. -/
def firstIdx (c : Char) (s : List Char) : Option Nat :=
  s.indexOf? c

/-- Index of the last occurrence of `c` (Go `strings.LastIndex`), as an option. -/
def lastIdx (c : Char) (s : List Char) : Option Nat :=
  (s.reverse.indexOf? c).map (fun k => s.length - 1 - k)

/-- The bracket-extraction cleanup of `generateSegmentInstructions`
(src/unnamed/part_004 lines 180-185): keep the substring from the first
`[` to the last `]` when that span is non-degenerate, otherwise the
input unchanged. -/
def extractArray (s : List Char) : List Char :=
  match firstIdx '[' s with
  | none => s
  | some i =>
    match lastIdx ']' s with
    | none => s
    | some j => if i < j then (s.drop i).take (j - i + 1) else s

/-- Observable outcome of one chat-completions HTTP exchange: transport
error, or a response with a status code, a flag telling whether the body
decoded into the choices struct, and the content strings of the choices. -/
inductive ChatOutcome where
  | httpErr
  | resp (status : Nat) (decodeOk : Bool) (choices : List (List Char))
deriving Repr, DecidableEq

/-- `generateSegmentInstructions` (src/unnamed/part_004 lines 115-194).
`hasOpenAIKey` models `os.Getenv("OPENAI_API_KEY") != ""`, `bookReadable`
models `os.ReadFile(bookPath)` succeeding, `unmarshalSegs` is the
standard library's `json.Unmarshal` into `[]Segment` (an external
function, taken as an oracle parameter), and `resp` is the HTTP
exchange's outcome.  Every failure after the key/file checks falls back
to `fallbackSegments`. -/
def generateSegmentInstructions (hasOpenAIKey bookReadable : Bool)
    (unmarshalSegs : List Char → Option (List Segment))
    (ttsDur : ℚ) (resp : ChatOutcome) : GoResult (List Segment) :=
  if !hasOpenAIKey then .err
  else if !bookReadable then .err
  else
    let fb : GoResult (List Segment) :=
      match fallbackSegments ttsDur with
      | some l => .ok l
      | none => .panicked
    match resp with
    | .httpErr => fb
    | .resp status decodeOk choices =>
      if status ≠ 200 then fb
      else if !decodeOk then fb
      else
        match choices with
        | [] => fb
        | c :: _ =>
          match unmarshalSegs (extractArray (trimSpace c)) with
          | none => fb
          | some segs => .ok segs

/-- The collaborator "errors or returns a non-success status": transport
failure, or an HTTP status other than 200. -/
def collaboratorFailed : ChatOutcome → Prop
  | .httpErr => True
  | .resp status _ _ => status ≠ 200

instance : DecidablePred collaboratorFailed := by
  intro r
  cases r with
  | httpErr => exact isTrue trivial
  | resp status decodeOk choices =>
    simp only [collaboratorFailed]
    infer_instance

/-- The responses on which `generateSegmentInstructions` takes the
fallback path: transport error, non-200 status, decode failure, no
choices, or content whose cleaned-up form fails to unmarshal. -/
def usesFallbackPath (unmarshalSegs : List Char → Option (List Segment)) :
    ChatOutcome → Prop
  | .httpErr => True
  | .resp status decodeOk choices =>
      status ≠ 200 ∨ decodeOk = false ∨ choices = [] ∨
      ∃ c rest, choices = c :: rest ∧
        unmarshalSegs (extractArray (trimSpace c)) = none

theorem collaboratorFailed_usesFallbackPath
    (unmarshalSegs : List Char → Option (List Segment)) (resp : ChatOutcome)
    (h : collaboratorFailed resp) : usesFallbackPath unmarshalSegs resp := by
  cases resp with
  | httpErr => trivial
  | resp status decodeOk choices => exact Or.inl h

theorem generateSegmentInstructions_fallback_branch
    (unmarshalSegs : List Char → Option (List Segment)) (ttsDur : ℚ)
    (resp : ChatOutcome) (h : usesFallbackPath unmarshalSegs resp) :
    generateSegmentInstructions true true unmarshalSegs ttsDur resp =
      match fallbackSegments ttsDur with
      | some l => .ok l
      | none => .panicked := by
  cases resp with
  | httpErr => rfl
  | resp status decodeOk choices =>
    rcases h with h | h | h | ⟨c, rest, hc, hu⟩
    · simp [generateSegmentInstructions, h]
    · subst h
      simp [generateSegmentInstructions]
    · subst h
      simp only [generateSegmentInstructions, Bool.not_true, Bool.false_eq_true,
        if_false]
      split <;> simp
    · subst hc
      simp only [generateSegmentInstructions, Bool.not_true, Bool.false_eq_true,
        if_false]
      split
      · rfl
      · split
        · rfl
        · simp [hu]

theorem fallbackSegments_eq (D : ℚ) (hD : 0 < D) :
    fallbackSegments D =
      some ((List.range (⌈D / 22⌉).toNat).map fun (i : ℕ) =>
        { start := (i : ℚ) * (D / (⌈D / 22⌉ : ℚ)),
          stop := ((i : ℚ) + 1) * (D / (⌈D / 22⌉ : ℚ)),
          mood := "neutral" }) := by
  have hn : (0 : ℤ) < ⌈D / 22⌉ := Int.ceil_pos.mpr (by positivity)
  have hnQ : (0 : ℚ) < ((⌈D / 22⌉ : ℤ) : ℚ) := by exact_mod_cast hn
  have hchunk : (0 : ℚ) < D / (⌈D / 22⌉ : ℚ) := div_pos hD hnQ
  unfold fallbackSegments
  rw [if_neg (by omega)]
  simp only [Option.some.injEq]
  apply List.map_congr_left
  intro i hi
  have hi' : i < (⌈D / 22⌉).toNat := List.mem_range.mp hi
  have hcast : ((⌈D / 22⌉).toNat : ℚ) = ((⌈D / 22⌉ : ℤ) : ℚ) := by
    exact_mod_cast congrArg (fun z : ℤ => (z : ℚ)) (Int.toNat_of_nonneg hn.le)
  have hle : ((i : ℚ) + 1) ≤ ((⌈D / 22⌉ : ℤ) : ℚ) := by
    rw [← hcast]
    exact_mod_cast Nat.succ_le_of_lt hi'
  have hbound : ((i : ℚ) + 1) * (D / (⌈D / 22⌉ : ℚ)) ≤ D := by
    calc ((i : ℚ) + 1) * (D / (⌈D / 22⌉ : ℚ))
        ≤ ((⌈D / 22⌉ : ℤ) : ℚ) * (D / (⌈D / 22⌉ : ℚ)) :=
          mul_le_mul_of_nonneg_right hle hchunk.le
      _ = D := by
          rw [mul_comm]
          exact div_mul_cancel₀ D (ne_of_gt hnQ)
  have harith : (i : ℚ) * (D / (⌈D / 22⌉ : ℚ)) + D / (⌈D / 22⌉ : ℚ) =
      ((i : ℚ) + 1) * (D / (⌈D / 22⌉ : ℚ)) := by ring
  simp only [harith]
  rw [if_neg (not_lt.mpr hbound)]

theorem fallbackSegments_props (D : ℚ) (hD : 0 < D) :
    ∃ l, fallbackSegments D = some l ∧ l ≠ [] ∧
      (∀ s ∈ l, s.start < s.stop) ∧
      l.Pairwise (fun a b => a.start ≤ b.start) := by
  have hn : (0 : ℤ) < ⌈D / 22⌉ := Int.ceil_pos.mpr (by positivity)
  have hnQ : (0 : ℚ) < ((⌈D / 22⌉ : ℤ) : ℚ) := by exact_mod_cast hn
  have hchunk : (0 : ℚ) < D / (⌈D / 22⌉ : ℚ) := div_pos hD hnQ
  refine ⟨_, fallbackSegments_eq D hD, ?_, ?_, ?_⟩
  · have hlen : ((List.range (⌈D / 22⌉).toNat).map fun (i : ℕ) =>
        ({ start := (i : ℚ) * (D / (⌈D / 22⌉ : ℚ)),
           stop := ((i : ℚ) + 1) * (D / (⌈D / 22⌉ : ℚ)),
           mood := "neutral" } : Segment)).length = (⌈D / 22⌉).toNat := by
      simp
    intro hnil
    rw [hnil] at hlen
    simp at hlen
    omega
  · intro s hs
    rcases List.mem_map.mp hs with ⟨i, _, rfl⟩
    have : (i : ℚ) < (i : ℚ) + 1 := by linarith
    exact mul_lt_mul_of_pos_right this hchunk
  · rw [List.pairwise_map]
    refine List.Pairwise.imp ?_ (List.pairwise_lt_range _)
    intro i j hij
    have : (i : ℚ) ≤ (j : ℚ) := by exact_mod_cast hij.le
    exact mul_le_mul_of_nonneg_right this hchunk.le

theorem fallback_bound (D : ℚ) (hD : 0 < D) (i : ℕ)
    (hi : i < (⌈D / 22⌉).toNat) :
    ((i : ℚ) + 1) * (D / (⌈D / 22⌉ : ℚ)) ≤ D := by
  have hn : (0 : ℤ) < ⌈D / 22⌉ := Int.ceil_pos.mpr (by positivity)
  have hnQ : (0 : ℚ) < ((⌈D / 22⌉ : ℤ) : ℚ) := by exact_mod_cast hn
  have hchunk : (0 : ℚ) < D / (⌈D / 22⌉ : ℚ) := div_pos hD hnQ
  have hcast : ((⌈D / 22⌉).toNat : ℚ) = ((⌈D / 22⌉ : ℤ) : ℚ) := by
    exact_mod_cast congrArg (fun z : ℤ => (z : ℚ)) (Int.toNat_of_nonneg hn.le)
  have hle : ((i : ℚ) + 1) ≤ ((⌈D / 22⌉ : ℤ) : ℚ) := by
    rw [← hcast]
    exact_mod_cast Nat.succ_le_of_lt hi
  calc ((i : ℚ) + 1) * (D / (⌈D / 22⌉ : ℚ))
      ≤ ((⌈D / 22⌉ : ℤ) : ℚ) * (D / (⌈D / 22⌉ : ℚ)) :=
        mul_le_mul_of_nonneg_right hle hchunk.le
    _ = D := by
        rw [mul_comm]
        exact div_mul_cancel₀ D (ne_of_gt hnQ)

/-- **C3**: for every `D > 0` the Segment Planner fallback is total
(`some`), returns exactly `⌈D/22⌉` segments all tagged `"neutral"` with
segment `i` running from `i*(D/N)` to `min ((i+1)*(D/N)) D`, and whenever
the text-analysis collaborator errors or returns a non-success status the
planner's output is exactly this fallback list. -/
theorem fallbackSegments_exact_and_planner_uses_it (D : ℚ) (hD : 0 < D) :
    ∃ l, fallbackSegments D = some l ∧
      l.length = (⌈D / 22⌉).toNat ∧
      (∀ i (hi : i < l.length),
        l.get ⟨i, hi⟩ =
          { start := (i : ℚ) * (D / (⌈D / 22⌉ : ℚ)),
            stop := min (((i : ℚ) + 1) * (D / (⌈D / 22⌉ : ℚ))) D,
            mood := "neutral" }) ∧
      ∀ (unmarshalSegs : List Char → Option (List Segment))
        (resp : ChatOutcome), collaboratorFailed resp →
        generateSegmentInstructions true true unmarshalSegs D resp = .ok l := by
  refine ⟨_, fallbackSegments_eq D hD, by simp, ?_, ?_⟩
  · intro i hi
    have hi' : i < (⌈D / 22⌉).toNat := by simpa using hi
    simp only [List.get_eq_getElem, List.getElem_map, List.getElem_range]
    rw [min_eq_left (fallback_bound D hD i hi')]
  · intro unmarshalSegs resp hresp
    rw [generateSegmentInstructions_fallback_branch unmarshalSegs D resp
      (collaboratorFailed_usesFallbackPath unmarshalSegs resp hresp),
      fallbackSegments_eq D hD]

theorem fallbackSegments_exact_and_planner_uses_it_witness :
    0 < (23 : ℚ) ∧
    ∃ l, fallbackSegments 23 = some l ∧
      l.length = (⌈(23 : ℚ) / 22⌉).toNat ∧
      (∀ i (hi : i < l.length),
        l.get ⟨i, hi⟩ =
          { start := (i : ℚ) * ((23 : ℚ) / (⌈(23 : ℚ) / 22⌉ : ℚ)),
            stop := min (((i : ℚ) + 1) * ((23 : ℚ) / (⌈(23 : ℚ) / 22⌉ : ℚ)))
              (23 : ℚ),
            mood := "neutral" }) ∧
      ∀ (unmarshalSegs : List Char → Option (List Segment))
        (resp : ChatOutcome), collaboratorFailed resp →
        generateSegmentInstructions true true unmarshalSegs 23 resp = .ok l :=
  ⟨by norm_num, fallbackSegments_exact_and_planner_uses_it 23 (by norm_num)⟩

/-- **C4** counterexample: the claim demands a non-empty output with
`end > start` for *every* collaborator response, but a well-formed
response whose content is the JSON text `[]` parses successfully and is
returned verbatim, so `generateSegmentInstructions` returns the empty
segment list. -/
theorem generateSegmentInstructions_empty_on_wellformed_response :
    generateSegmentInstructions true true
      (fun s => if s = ['[', ']'] then some [] else none) 10
      (.resp 200 true [['[', ']']]) = .ok [] := by
  rfl

/-- **C4** (amended): for every `D > 0`, on every collaborator response
that sends the planner down its fallback path (transport error,
non-success status, decode failure, no choices, or unparseable content)
the returned segment list is non-empty, every segment has `end > start`,
and starts are non-decreasing.  (A successfully parsed response is
returned verbatim and may violate all three properties.) -/
theorem generateSegmentInstructions_fallback_wellformed (D : ℚ) (hD : 0 < D)
    (unmarshalSegs : List Char → Option (List Segment)) (resp : ChatOutcome)
    (h : usesFallbackPath unmarshalSegs resp) :
    ∃ l, generateSegmentInstructions true true unmarshalSegs D resp = .ok l ∧
      l ≠ [] ∧ (∀ s ∈ l, s.start < s.stop) ∧
      l.Pairwise (fun a b => a.start ≤ b.start) := by
  obtain ⟨l, hsome, hne, hlt, hpair⟩ := fallbackSegments_props D hD
  refine ⟨l, ?_, hne, hlt, hpair⟩
  rw [generateSegmentInstructions_fallback_branch unmarshalSegs D resp h, hsome]

theorem generateSegmentInstructions_fallback_wellformed_witness :
    0 < (5 : ℚ) ∧
    usesFallbackPath (fun _ => none) ChatOutcome.httpErr ∧
    ∃ l, generateSegmentInstructions true true (fun _ => none) 5
        ChatOutcome.httpErr = .ok l ∧
      l ≠ [] ∧ (∀ s ∈ l, s.start < s.stop) ∧
      l.Pairwise (fun a b => a.start ≤ b.start) :=
  ⟨by norm_num, trivial,
    generateSegmentInstructions_fallback_wellformed 5 (by norm_num)
      (fun _ => none) ChatOutcome.httpErr trivial⟩

/-! ## The Book data model and the mutable world of the orchestrator -/

/-- Go struct `Book` (src/unnamed/part_001 lines 254-270), restricted to the
fields the pipeline reads or writes. -/
structure Book where
  id : Nat
  title : String
  contentHash : String
  filePath : String
  audioPath : String
  status : String
deriving Repr, DecidableEq

/-- Mutable state visible to the pipeline: the `books` table (kept in
primary-key order, the order GORM's `First` scans), the set of file paths
present on disk, the process-lifetime `effectCache`, instrumentation
counters for the external calls the claims count, flags recording whether
the staged/final background tracks were ever written, whether
`overlaySoundEvents` was entered, and the input clips of the last overlay
mix. -/
structure World where
  books : List Book
  fs : List String
  effectCache : List (String × String)
  promptCalls : Nat
  soundCalls : Nat
  ffmpegCalls : Nat
  overlayCalls : Nat
  stagedWritten : Bool
  finalBgWritten : Bool
  mixInputs : List String
deriving Repr, DecidableEq

/-- Read-only oracles for the external collaborators.  Call outcomes are
streams indexed by the matching counter of `World`, so that repeated runs
draw successive values. -/
structure Env where
  hasXIKey : Bool
  hasOpenAIKey : Bool
  promptResult : Nat → Option String
  soundOutcome : Nat → Bool
  ffmpegOutcome : Nat → Bool
  ffprobeDur : String → Option ℚ
  segResponse : ChatOutcome
  unmarshalSegs : List Char → Option (List Segment)
  eventsResult : Option (List (String × List ℚ))

/-- `db.Model(&Book{}).Where("id = ?", id).Updates(...)` / `db.Save` after a
load by primary key: apply `f` to every row with this id. -/
def updateBook (books : List Book) (id : Nat) (f : Book → Book) : List Book :=
  books.map fun b => if b.id = id then f b else b

/-- `updateBookStatus` (src/tts_processing.go lines 176-186): load the book
by id and save it back with the new status. -/
def updateBookStatus (books : List Book) (id : Nat) (status : String) :
    List Book :=
  updateBook books id fun b => { b with status := status }

/-- The dedup lookup of the orchestrator (src/unnamed/part_004 lines
417-418): `content_hash = ? AND audio_path IS NOT NULL AND status =
'completed'`, first match in primary-key order.  `audio_path IS NOT NULL`
is always true in this model: the column is backed by a Go `string`
field, which GORM writes as a (possibly empty) non-NULL string. -/
def findCompletedByHash (books : List Book) (h : String) : Option Book :=
  books.find? fun b => b.contentHash == h && b.status == "completed"

/-- Status of the row with the given id, if any. -/
def bookStatus (w : World) (id : Nat) : Option String :=
  (w.books.find? fun b => b.id == id).map Book.status

/-- Audio path of the row with the given id, if any. -/
def bookAudio (w : World) (id : Nat) : Option String :=
  (w.books.find? fun b => b.id == id).map Book.audioPath

/-! ## ElevenLabs music / effect clip generation -/

/-- `generateSoundEffect` (src/unnamed/part_004 lines 53-88): one API call
producing one 22-second clip.  The HTTP transport error, non-200 status and
`os.WriteFile` failure cases are collapsed into one `Bool` oracle drawn at
the current `soundCalls` index; the output path is the deterministic
`fmt.Sprintf` of the source.  The prompt parameter does not influence the
modelled observables. -/
def generateSoundEffect (env : Env) (w : World) (_prompt : String)
    (id : Option String) : World × Option String :=
  if !env.hasXIKey then (w, none)
  else
    let k := w.soundCalls
    let w' := { w with soundCalls := k + 1 }
    if env.soundOutcome k then
      let out := match id with
        | some v => "./audio/sound_effect_" ++ v ++ ".mp3"
        | none => "./audio/sound_effect.mp3"
      ({ w' with fs := out :: w'.fs }, some out)
    else (w', none)

/-- The package-level `effectPrompts` map (src/unnamed/part_004 lines
43-47). -/
def effectPrompts : List (String × String) :=
  [("sword_clash", "Short metallic sword clash, bright ring, about 2 seconds."),
   ("door_creak", "Wooden door creaking open, slow, about 2 seconds."),
   ("thunder", "Low rumbling thunder roll, about 2 seconds.")]

/-- Go map lookup on an association list. -/
def alookup (l : List (String × String)) (k : String) : Option String :=
  (l.find? fun p => p.1 == k).map Prod.snd

/-- `getOrGenerateEffect` (src/unnamed/part_004 lines 368-382): return the
cached clip path for the event type, or generate one, cache it and return
it; a failed generation leaves the cache untouched. -/
def getOrGenerateEffect (env : Env) (w : World) (eventType : String) :
    World × Option String :=
  match alookup w.effectCache eventType with
  | some p => (w, some p)
  | none =>
    let prompt := match alookup effectPrompts eventType with
      | some p => p
      | none => "Sound effect for event: " ++ eventType ++ ", about 2 seconds."
    match generateSoundEffect env w prompt (some eventType) with
    | (w', some path) =>
      ({ w' with effectCache := (eventType, path) :: w'.effectCache }, some path)
    | (w', none) => (w', none)

/-! ## Background Synthesizer -/

/-- Per-segment output path `./dyn_seg_%d.ogg` (src/unnamed/part_004
line 204). -/
def dynSegName (i : ℕ) : String := "./dyn_seg_" ++ toString i ++ ".ogg"

/-- The per-segment loop of `generateDynamicBackgroundWithSegments`
(src/unnamed/part_004 lines 198-219): Go's `for i, s := range segs`, so
segments arrive paired with their index.  A segment of non-positive
length is skipped; otherwise one ffmpeg invocation (loop + trim + delay +
volume) produces `./dyn_seg_i.ogg`, and any invocation failure aborts the
whole loop with an error (`none`). -/
def genDynLoop (env : Env) : World → List (ℕ × Segment) → List String →
    World × Option (List String)
  | w, [], acc => (w, some acc.reverse)
  | w, (i, s) :: rest, acc =>
    if s.stop - s.start ≤ 0 then genDynLoop env w rest acc
    else
      let k := w.ffmpegCalls
      let w' := { w with ffmpegCalls := k + 1 }
      if env.ffmpegOutcome k then
        genDynLoop env { w' with fs := dynSegName i :: w'.fs } rest
          (dynSegName i :: acc)
      else (w', none)

/-- `generateDynamicBackgroundWithSegments` (src/unnamed/part_004 lines
197-243): run the per-segment loop, write the concat list (the Go code
ignores `os.Create`'s error), concatenate into the staged track, then
trim/re-encode to the final track; each of the two ffmpeg passes can fail.
The `stagedWritten`/`finalBgWritten` flags record that the corresponding
track was emitted. -/
def generateDynamicBackgroundWithSegments (env : Env) (w : World)
    (_ttsDur : ℚ) (_bgPath : String) (segs : List Segment) :
    World × Option String :=
  match genDynLoop env w segs.enum [] with
  | (w1, none) => (w1, none)
  | (w1, some _files) =>
    let w2 := { w1 with fs := "./dyn_list.txt" :: w1.fs }
    let k := w2.ffmpegCalls
    let w3 := { w2 with ffmpegCalls := k + 1 }
    if env.ffmpegOutcome k then
      let w4 := { w3 with fs := "./dynamic_bg_staged.ogg" :: w3.fs,
                          stagedWritten := true }
      let k2 := w4.ffmpegCalls
      let w5 := { w4 with ffmpegCalls := k2 + 1 }
      if env.ffmpegOutcome k2 then
        ({ w5 with fs := "./dynamic_background_final.ogg" :: w5.fs,
                   finalBgWritten := true }, some "./dynamic_background_final.ogg")
      else (w5, none)
    else (w3, none)

/-! ## Base mix -/

/-- `mergeAudio` (src/unnamed/part_004 lines 256-281): probe the narration
duration, plan segments, synthesize the dynamic background, then mix
narration and background.  `ffprobe` failure is an error; `hash[:8]` in the
output file name panics when `hash` is shorter than 8 bytes.  (The Go code
ignores the `strconv.ParseFloat` error, so a garbage probe output shows up
as duration 0 via the `ffprobeDur` oracle.) -/
def mergeAudio (env : Env) (w : World) (ttsPath bgPath : String)
    (book : Book) (bookPath : String) (hash : String) :
    World × GoResult String :=
  match env.ffprobeDur ttsPath with
  | none => (w, .err)
  | some dur =>
    match generateSegmentInstructions env.hasOpenAIKey
        (w.fs.contains bookPath) env.unmarshalSegs dur env.segResponse with
    | .err => (w, .err)
    | .panicked => (w, .panicked)
    | .ok segs =>
      match generateDynamicBackgroundWithSegments env w dur bgPath segs with
      | (w1, none) => (w1, .err)
      | (w1, some _dynBg) =>
        if hash.length < 8 then (w1, .panicked)
        else
          let outFile := "./merged_output_" ++ toString book.id ++ "_" ++
            (hash.take 8) ++ ".ogg"
          let k := w1.ffmpegCalls
          let w2 := { w1 with ffmpegCalls := k + 1 }
          if env.ffmpegOutcome k then
            ({ w2 with fs := outFile :: w2.fs }, .ok outFile)
          else (w2, .err)

/-! ## Event Overlay Engine -/

/-- `strings.ReplaceAll(strings.ToLower(title), " ", "_")`
(src/unnamed/part_004 line 482). -/
def safeTitle (t : String) : String := (t.toLower).replace " " "_"

/-- The per-event-type loop of `overlaySoundEvents` (src/unnamed/part_004
lines 490-505): resolve each type's clip through the cache; a failed
resolution skips that type (`continue`), a successful one adds the clip as
one more ffmpeg input.  Returns the included clips in iteration order. -/
def overlayLoop (env : Env) : World → List (String × List ℚ) →
    List String → World × List String
  | w, [], acc => (w, acc.reverse)
  | w, (evt, _times) :: rest, acc =>
    match getOrGenerateEffect env w evt with
    | (w', some clip) => overlayLoop env w' rest (clip :: acc)
    | (w', none) => overlayLoop env w' rest acc

/-- `overlaySoundEvents` (src/unnamed/part_004 lines 481-516): slice the
first 8 bytes of the book's content hash for the output name (a Go panic
when the hash is shorter), resolve each event type's clip (failures skip
the type), then run one multi-input amix invocation whose failure is the
stage's error.  Go iterates the `EventMap` in unspecified map order; the
model fixes one order by taking an association list. -/
def overlaySoundEvents (env : Env) (w : World) (baseMix : String)
    (events : List (String × List ℚ)) (book : Book) :
    World × GoResult String :=
  let w0 := { w with overlayCalls := w.overlayCalls + 1 }
  if book.contentHash.length < 8 then (w0, .panicked)
  else
    let hashSuffix := book.contentHash.take 8
    let outFile := "./final_with_fx_" ++ safeTitle book.title ++ "_" ++
      toString book.id ++ "_" ++ hashSuffix ++ ".ogg"
    match overlayLoop env w0 events [] with
    | (w1, inputs) =>
      let w2 := { w1 with mixInputs := baseMix :: inputs }
      let k := w2.ffmpegCalls
      let w3 := { w2 with ffmpegCalls := k + 1 }
      if env.ffmpegOutcome k then
        ({ w3 with fs := outFile :: w3.fs }, .ok outFile)
      else (w3, .err)

/-! ## Merge Orchestrator -/

/-- How one call of `processSoundEffectsAndMerge` terminates: normally, or
by a runtime panic that kills its goroutine. -/
inductive RunOutcome where
  | finished
  | panicked
deriving Repr, DecidableEq

/-- The content-hash backfill of `processSoundEffectsAndMerge`
(src/unnamed/part_004 lines 389-392) applied to the in-memory book: when
the book has no content hash and a non-empty `hash` argument arrives, the
local copy adopts it. -/
def backfillBook (book : Book) (hash : String) : Book :=
  if book.contentHash = "" ∧ hash ≠ "" then { book with contentHash := hash }
  else book

/-- Row update writing the content hash (src/unnamed/part_004 line 391). -/
def setContentHash (books : List Book) (id : Nat) (h : String) : List Book :=
  updateBook books id fun b => { b with contentHash := h }

/-- Row update of the dedup shortcut (src/unnamed/part_004 lines 421-424):
copy the existing record's audio path, mark `completed (reused)`. -/
def setReusedFrom (books : List Book) (id : Nat) (path : String) : List Book :=
  updateBook books id fun b =>
    { b with audioPath := path, status := "completed (reused)" }

/-- Row update of step 4 (src/unnamed/part_004 lines 469-472): persist the
final audio path, mark `completed`. -/
def setCompleted (books : List Book) (id : Nat) (path : String) : List Book :=
  updateBook books id fun b =>
    { b with audioPath := path, status := "completed" }

/-- The matching database update of the backfill (src/unnamed/part_004
line 391). -/
def backfillWorld (w : World) (book : Book) (hash : String) : World :=
  if book.contentHash = "" ∧ hash ≠ "" then
    { w with books := setContentHash w.books book.id hash }
  else w

/-- `updateBookStatus(book.ID, "failed")` applied to a world. -/
def setFailed (w : World) (id : Nat) : World :=
  { w with books := updateBookStatus w.books id "failed" }

/-- Whether a path matches the glob `dyn_seg_*.ogg` of `cleanupTempFiles`
(the model writes those files with a leading `./`). -/
def matchesDynSegGlob (p : String) : Bool :=
  "./dyn_seg_".toList.isPrefixOf p.toList &&
  ".ogg".toList.reverse.isPrefixOf p.toList.reverse

/-- `cleanupTempFiles` (src/unnamed/part_004 lines 519-526): best-effort
removal of the per-segment artifacts and the concat list.  Go globs the
cwd-relative pattern `dyn_seg_*.ogg`, which resolves the same files this
model records as `./dyn_seg_<i>.ogg`. -/
def cleanupTempFiles (w : World) : World :=
  { w with fs := w.fs.filter fun p =>
      !(matchesDynSegGlob p) && !(p == "./dyn_list.txt") }

/-- Step 4 of the orchestrator (src/unnamed/part_004 lines 469-477): persist
the final audio path with status `completed` (the update's error is only
logged), then clean up the temporary files. -/
def finishBook (w : World) (id : Nat) (path : String) : World :=
  cleanupTempFiles { w with books := setCompleted w.books id path }

/-- One generateOverallSoundPrompt attempt consumed (instrumentation). -/
def bumpPromptCalls (w : World) : World :=
  { w with promptCalls := w.promptCalls + 1 }

/-- Steps 2-4 of `processSoundEffectsAndMerge` (src/unnamed/part_004
lines 444-478), reached once the dedup shortcut missed and the background
music clip `bg` was generated: mix narration with the background, then
best-effort extract events and overlay them.  A `mergeAudio` error marks
the book `failed`; an event-extraction or overlay error keeps the base mix
as the final audio and still finishes with status `completed`.
`extractSoundEvents` (lines 302-365) is one OpenAI call whose net outcome
— an event map or an error — is the `eventsResult` oracle. -/
def runSynthesis (env : Env) (w1 : World) (bk : Book) (hash : String)
    (bg : String) : World × RunOutcome :=
  match mergeAudio env w1 bk.audioPath bg bk bk.filePath hash with
  | (w2, .err) => (setFailed w2 bk.id, .finished)
  | (w2, .panicked) => (w2, .panicked)
  | (w2, .ok baseMix) =>
    match env.eventsResult with
    | none => (finishBook w2 bk.id baseMix, .finished)
    | some events =>
      match overlaySoundEvents env w2 baseMix events bk with
      | (w3, .panicked) => (w3, .panicked)
      | (w3, .err) => (finishBook w3 bk.id baseMix, .finished)
      | (w3, .ok fxMix) => (finishBook w3 bk.id fxMix, .finished)

/-- `processSoundEffectsAndMerge` (src/unnamed/part_004 lines 387-478), the
Merge Orchestrator: backfill the content hash, check the preconditions
(audio path set, source text file present, narration audio file present —
only the last failure marks the book `failed`), take the dedup shortcut on
a completed record with the same content hash, and otherwise run prompt
generation, music generation and `runSynthesis`. -/
def processSoundEffectsAndMerge (env : Env) (w : World) (book : Book)
    (hash : String) : World × RunOutcome :=
  let bk := backfillBook book hash
  let w := backfillWorld w book hash
  if bk.audioPath = "" then (w, .finished)
  else if !(w.fs.contains bk.filePath) then (w, .finished)
  else if !(w.fs.contains bk.audioPath) then (setFailed w bk.id, .finished)
  else
    match findCompletedByHash w.books bk.contentHash with
    | some existing =>
      ({ w with books := setReusedFrom w.books bk.id existing.audioPath },
        .finished)
    | none =>
      match env.promptResult w.promptCalls with
      | none => (setFailed (bumpPromptCalls w) bk.id, .finished)
      | some prompt =>
        match generateSoundEffect env (bumpPromptCalls w) prompt none with
        | (w1, none) => (setFailed w1 bk.id, .finished)
        | (w1, some bg) => runSynthesis env w1 bk hash bg

/-! ## Concrete test fixtures -/

/-- An all-success oracle environment: collaborators up, every ffmpeg
invocation succeeds, narration probes at 10 s, the segmentation
collaborator is down (transport error, so every plan is the deterministic
fallback), and event extraction fails (the orchestrator keeps the base
mix). -/
def happyEnv : Env :=
  { hasXIKey := true
    hasOpenAIKey := true
    promptResult := fun _ => some "calm strings"
    soundOutcome := fun _ => true
    ffmpegOutcome := fun _ => true
    ffprobeDur := fun _ => some 10
    segResponse := .httpErr
    unmarshalSegs := fun _ => none
    eventsResult := none }

/-- A 16-byte content hash used by the concrete scenarios. -/
def scenarioHash : String := "0123456789abcdef"

def scenarioBook1 : Book :=
  { id := 1, title := "alpha", contentHash := scenarioHash,
    filePath := "./books/1.txt", audioPath := "./audio/1.mp3",
    status := "pending" }

def scenarioBook2 : Book :=
  { id := 2, title := "beta", contentHash := scenarioHash,
    filePath := "./books/2.txt", audioPath := "./audio/2.mp3",
    status := "pending" }

/-- Fresh world containing the two scenario books and their files. -/
def scenarioWorld : World :=
  { books := [scenarioBook1, scenarioBook2]
    fs := ["./books/1.txt", "./audio/1.mp3", "./books/2.txt", "./audio/2.mp3"]
    effectCache := []
    promptCalls := 0
    soundCalls := 0
    ffmpegCalls := 0
    overlayCalls := 0
    stagedWritten := false
    finalBgWritten := false
    mixInputs := [] }

/-! ## Helper lemmas about the orchestrator's bookkeeping -/

/-- The synthesis-related instrumentation counters of two worlds agree:
no prompt generation, clip generation, compositing invocation or overlay
entry separates them. -/
def sameSynthCounters (a b : World) : Prop :=
  a.promptCalls = b.promptCalls ∧ a.soundCalls = b.soundCalls ∧
  a.ffmpegCalls = b.ffmpegCalls ∧ a.overlayCalls = b.overlayCalls

@[simp] theorem backfillBook_id (book : Book) (hash : String) :
    (backfillBook book hash).id = book.id := by
  unfold backfillBook
  split <;> rfl

@[simp] theorem backfillBook_filePath (book : Book) (hash : String) :
    (backfillBook book hash).filePath = book.filePath := by
  unfold backfillBook
  split <;> rfl

@[simp] theorem backfillBook_audioPath (book : Book) (hash : String) :
    (backfillBook book hash).audioPath = book.audioPath := by
  unfold backfillBook
  split <;> rfl

@[simp] theorem backfillWorld_fs (w : World) (book : Book) (hash : String) :
    (backfillWorld w book hash).fs = w.fs := by
  unfold backfillWorld
  split <;> rfl

theorem backfillWorld_counters (w : World) (book : Book) (hash : String) :
    sameSynthCounters (backfillWorld w book hash) w := by
  unfold backfillWorld
  split <;> exact ⟨rfl, rfl, rfl, rfl⟩

theorem setFailed_counters (w : World) (id : Nat) :
    sameSynthCounters (setFailed w id) w :=
  ⟨rfl, rfl, rfl, rfl⟩

/-! ## Claim C5 -/

def bookMissingText : Book :=
  { id := 3, title := "gamma", contentHash := scenarioHash,
    filePath := "./books/3.txt", audioPath := "./audio/3.mp3",
    status := "pending" }

/-- World in which the narration audio of `bookMissingText` exists on disk
but its source text file does not. -/
def worldMissingText : World :=
  { scenarioWorld with books := [bookMissingText], fs := ["./audio/3.mp3"] }

/-- **C5** counterexample: invoked on a book whose source text is missing
from durable storage, the orchestrator performs no synthesis but — contrary
to the claim — does not transition the book to `failed`: it returns with
the world unchanged and the status still `pending`. -/
theorem missingSourceText_does_not_fail :
    processSoundEffectsAndMerge happyEnv worldMissingText bookMissingText
        scenarioHash = (worldMissingText, .finished) ∧
    bookStatus worldMissingText 3 = some "pending" := by
  constructor
  · simp [processSoundEffectsAndMerge, backfillBook, backfillWorld, happyEnv,
      worldMissingText, bookMissingText, scenarioHash, scenarioWorld]
  · simp [bookStatus, worldMissingText, bookMissingText]

/-- **C5** (amended): when the narration audio file is missing the
orchestrator performs no synthesis and transitions the book to `failed`;
when the audio path is unset or the source text file is missing it also
performs no synthesis, but returns without touching the status (only the
content-hash backfill may have been written). -/
theorem processSoundEffectsAndMerge_missing_inputs (env : Env) (w : World)
    (book : Book) (hash : String) :
    (book.audioPath = "" ∨ w.fs.contains book.filePath = false →
      processSoundEffectsAndMerge env w book hash =
        (backfillWorld w book hash, .finished)) ∧
    (book.audioPath ≠ "" → w.fs.contains book.filePath = true →
      w.fs.contains book.audioPath = false →
      processSoundEffectsAndMerge env w book hash =
        (setFailed (backfillWorld w book hash) book.id, .finished)) ∧
    ((book.audioPath = "" ∨ w.fs.contains book.filePath = false ∨
        w.fs.contains book.audioPath = false) →
      sameSynthCounters (processSoundEffectsAndMerge env w book hash).1 w) := by
  have hfs := backfillWorld_fs w book hash
  have hfp := backfillBook_filePath book hash
  have hap := backfillBook_audioPath book hash
  have hid := backfillBook_id book hash
  refine ⟨?_, ?_, ?_⟩
  · intro h
    by_cases ha : book.audioPath = ""
    · unfold processSoundEffectsAndMerge
      rw [if_pos (hap.trans ha)]
    · rcases h with h | h
      · exact absurd h ha
      · unfold processSoundEffectsAndMerge
        rw [if_neg (by rw [hap]; exact ha), if_pos (by rw [hfs, hfp, h]; rfl)]
  · intro ha hfile haud
    unfold processSoundEffectsAndMerge
    rw [if_neg (by rw [hap]; exact ha), if_neg (by rw [hfs, hfp, hfile]; simp),
      if_pos (by rw [hfs, hap, haud]; rfl), hid]
  · intro h
    have hcnt := backfillWorld_counters w book hash
    by_cases ha : book.audioPath = ""
    · rw [(by
        unfold processSoundEffectsAndMerge
        rw [if_pos (by rw [hap]; exact ha)] :
          processSoundEffectsAndMerge env w book hash =
            (backfillWorld w book hash, .finished))]
      exact hcnt
    · by_cases hfile : w.fs.contains book.filePath = false
      · rw [(by
          unfold processSoundEffectsAndMerge
          rw [if_neg (by rw [hap]; exact ha),
            if_pos (by rw [hfs, hfp, hfile]; rfl)] :
            processSoundEffectsAndMerge env w book hash =
              (backfillWorld w book hash, .finished))]
        exact hcnt
      · have hfile' : w.fs.contains book.filePath = true := by
          cases hcf : w.fs.contains book.filePath
          · exact absurd hcf hfile
          · rfl
        have haud : w.fs.contains book.audioPath = false := by
          rcases h with h | h | h
          · exact absurd h ha
          · exact absurd h hfile
          · exact h
        rw [(by
          unfold processSoundEffectsAndMerge
          rw [if_neg (by rw [hap]; exact ha),
            if_neg (by rw [hfs, hfp, hfile']; simp),
            if_pos (by rw [hfs, hap, haud]; rfl)] :
            processSoundEffectsAndMerge env w book hash =
              (setFailed (backfillWorld w book hash)
                (backfillBook book hash).id, .finished))]
        exact ⟨(setFailed_counters _ _).1.trans hcnt.1,
          (setFailed_counters _ _).2.1.trans hcnt.2.1,
          (setFailed_counters _ _).2.2.1.trans hcnt.2.2.1,
          (setFailed_counters _ _).2.2.2.trans hcnt.2.2.2⟩

theorem processSoundEffectsAndMerge_missing_inputs_witness :
    processSoundEffectsAndMerge happyEnv worldMissingText bookMissingText
        scenarioHash =
      (backfillWorld worldMissingText bookMissingText scenarioHash,
        .finished) ∧
    sameSynthCounters (processSoundEffectsAndMerge happyEnv worldMissingText
        bookMissingText scenarioHash).1 worldMissingText :=
  ⟨(processSoundEffectsAndMerge_missing_inputs happyEnv worldMissingText
      bookMissingText scenarioHash).1 (Or.inr (by decide)),
   (processSoundEffectsAndMerge_missing_inputs happyEnv worldMissingText
      bookMissingText scenarioHash).2.2 (Or.inr (Or.inl (by decide)))⟩

/-! ## Claim C2 -/

/-- `fallbackSegments` at the concrete scenario duration 10: one neutral
segment covering [0, 10). -/
theorem fallbackSegments_ten :
    fallbackSegments 10 = some [{ start := 0, stop := 10, mood := "neutral" }] := by
  rw [fallbackSegments_eq 10 (by norm_num),
    show ⌈(10 : ℚ) / 22⌉ = 1 from by rw [Int.ceil_eq_iff]; norm_num]
  norm_num [List.range_succ]

def completedBook : Book :=
  { id := 7, title := "delta", contentHash := scenarioHash,
    filePath := "./books/7.txt", audioPath := "./final7.ogg",
    status := "completed" }

/-- World already holding a completed record with the scenario's content
hash. -/
def reuseWorld : World :=
  { scenarioWorld with books := [completedBook, scenarioBook2] }

/-- **C2**: (general part) when the preconditions pass and some record
shares the current content hash with a non-null audio path and status
`completed`, the orchestrator copies that record's audio path, marks the
book `completed (reused)` and performs no synthesis step at all; (scenario
part) two submissions with identical content hash cause exactly one
music-synthesis call, the second ending `completed (reused)` with the
first's audio path. -/
theorem dedupShortcut_and_single_synthesis :
    (∀ (env : Env) (w : World) (book : Book) (hash : String)
      (existing : Book),
      book.audioPath ≠ "" →
      w.fs.contains book.filePath = true →
      w.fs.contains book.audioPath = true →
      findCompletedByHash (backfillWorld w book hash).books
          (backfillBook book hash).contentHash = some existing →
      processSoundEffectsAndMerge env w book hash =
        ({ backfillWorld w book hash with
            books := setReusedFrom (backfillWorld w book hash).books book.id
              existing.audioPath }, .finished) ∧
      sameSynthCounters (processSoundEffectsAndMerge env w book hash).1 w) ∧
    (let r1 := processSoundEffectsAndMerge happyEnv scenarioWorld
        scenarioBook1 scenarioHash
     let r2 := processSoundEffectsAndMerge happyEnv r1.1 scenarioBook2
        scenarioHash
     r1.1.soundCalls = 1 ∧ r2.1.soundCalls = 1 ∧
     bookStatus r1.1 1 = some "completed" ∧
     bookStatus r2.1 2 = some "completed (reused)" ∧
     bookAudio r2.1 2 = bookAudio r1.1 1) := by
  constructor
  · intro env w book hash existing ha hfile haud hfind
    have hfs := backfillWorld_fs w book hash
    have hfp := backfillBook_filePath book hash
    have hap := backfillBook_audioPath book hash
    have hid := backfillBook_id book hash
    have heq : processSoundEffectsAndMerge env w book hash =
        ({ backfillWorld w book hash with
            books := setReusedFrom (backfillWorld w book hash).books book.id
              existing.audioPath }, .finished) := by
      unfold processSoundEffectsAndMerge
      rw [if_neg (by rw [hap]; exact ha),
        if_neg (by rw [hfs, hfp, hfile]; simp),
        if_neg (by rw [hfs, hap, haud]; simp), hfind, hid]
    refine ⟨heq, ?_⟩
    rw [heq]
    exact backfillWorld_counters w book hash
  · simp [processSoundEffectsAndMerge, backfillBook, backfillWorld,
      runSynthesis, mergeAudio, generateSegmentInstructions,
      fallbackSegments_ten, generateDynamicBackgroundWithSegments, genDynLoop,
      generateSoundEffect, bumpPromptCalls, happyEnv, scenarioWorld,
      scenarioBook1, scenarioBook2, scenarioHash, findCompletedByHash,
      setFailed, finishBook, cleanupTempFiles, setCompleted, setReusedFrom,
      setContentHash, updateBook, updateBookStatus, bookStatus, bookAudio,
      dynSegName, matchesDynSegGlob,
      show ¬((10 : ℚ) - 0 ≤ 0) from by norm_num,
      show ¬((10 : ℚ) ≤ 0) from by norm_num,
      show ¬("0123456789abcdef".length < 8) from by decide]

theorem dedupShortcut_and_single_synthesis_witness :
    processSoundEffectsAndMerge happyEnv reuseWorld scenarioBook2
        scenarioHash =
      ({ backfillWorld reuseWorld scenarioBook2 scenarioHash with
          books := setReusedFrom
            (backfillWorld reuseWorld scenarioBook2 scenarioHash).books
            scenarioBook2.id completedBook.audioPath }, .finished) ∧
    sameSynthCounters (processSoundEffectsAndMerge happyEnv reuseWorld
        scenarioBook2 scenarioHash).1 reuseWorld :=
  dedupShortcut_and_single_synthesis.1 happyEnv reuseWorld scenarioBook2
    scenarioHash completedBook (by decide) (by decide) (by decide) (by decide)

/-! ## Claim C6 -/

theorem genDynLoop_flags (env : Env) :
    ∀ (l : List (ℕ × Segment)) (w : World) (acc : List String),
      (genDynLoop env w l acc).1.stagedWritten = w.stagedWritten ∧
      (genDynLoop env w l acc).1.finalBgWritten = w.finalBgWritten := by
  intro l
  induction l with
  | nil => intro w acc; exact ⟨rfl, rfl⟩
  | cons hd t ih =>
    intro w acc
    obtain ⟨i, s⟩ := hd
    simp only [genDynLoop]
    split
    · exact ih w acc
    · split
      · exact ih _ _
      · exact ⟨rfl, rfl⟩

/-- Shape lemma: when the preconditions hold, the dedup lookup misses, the
style prompt is produced and the music clip is generated, the orchestrator
continues as `runSynthesis`. -/
theorem orchestrator_reaches_synthesis (env : Env) (w : World) (book : Book)
    (hash prompt : String) (w1 : World) (bg : String)
    (ha : book.audioPath ≠ "")
    (hfile : w.fs.contains book.filePath = true)
    (haud : w.fs.contains book.audioPath = true)
    (hdedup : findCompletedByHash (backfillWorld w book hash).books
        (backfillBook book hash).contentHash = none)
    (hprompt : env.promptResult (backfillWorld w book hash).promptCalls =
        some prompt)
    (hmusic : generateSoundEffect env
        (bumpPromptCalls (backfillWorld w book hash)) prompt none =
        (w1, some bg)) :
    processSoundEffectsAndMerge env w book hash =
      runSynthesis env w1 (backfillBook book hash) hash bg := by
  unfold processSoundEffectsAndMerge
  rw [if_neg (by rw [backfillBook_audioPath]; exact ha),
    if_neg (by rw [backfillWorld_fs, backfillBook_filePath, hfile]; simp),
    if_neg (by rw [backfillWorld_fs, backfillBook_audioPath, haud]; simp),
    hdedup]
  dsimp only
  rw [hprompt]
  dsimp only
  rw [hmusic]

/-- Environment in which every compositing invocation fails. -/
def segFailEnv : Env := { happyEnv with ffmpegOutcome := fun _ => false }

/-- **C6** counterexample: when the compositing step for a segment fails,
the caller does not fall back to narration-only audio as the claim states:
the book is marked `failed` with its audio path untouched (no staged or
final background was emitted either). -/
theorem segmentFailure_fails_book :
    bookStatus (processSoundEffectsAndMerge segFailEnv scenarioWorld
        scenarioBook1 scenarioHash).1 1 = some "failed" ∧
    bookAudio (processSoundEffectsAndMerge segFailEnv scenarioWorld
        scenarioBook1 scenarioHash).1 1 = some "./audio/1.mp3" ∧
    (processSoundEffectsAndMerge segFailEnv scenarioWorld scenarioBook1
        scenarioHash).1.stagedWritten = false ∧
    (processSoundEffectsAndMerge segFailEnv scenarioWorld scenarioBook1
        scenarioHash).1.finalBgWritten = false := by
  simp [processSoundEffectsAndMerge, backfillBook, backfillWorld,
    runSynthesis, mergeAudio, generateSegmentInstructions,
    fallbackSegments_ten, generateDynamicBackgroundWithSegments, genDynLoop,
    generateSoundEffect, bumpPromptCalls, segFailEnv, happyEnv, scenarioWorld,
    scenarioBook1, scenarioBook2, scenarioHash, findCompletedByHash,
    setFailed, finishBook, cleanupTempFiles, setCompleted, setReusedFrom,
    setContentHash, updateBook, updateBookStatus, bookStatus, bookAudio,
    dynSegName, matchesDynSegGlob,
    show ¬((10 : ℚ) - 0 ≤ 0) from by norm_num,
    show ¬((10 : ℚ) ≤ 0) from by norm_num]

/-- **C6** (amended): if the compositing step for any single segment fails,
background generation returns an error having emitted neither the staged
nor the final background track; the caller (`mergeAudio` and with it the
orchestrator) then marks the whole merge `failed` — it does not fall back
to narration-only audio. -/
theorem backgroundFailure_aborts_entirely :
    (∀ (env : Env) (w : World) (dur : ℚ) (bg : String)
      (segs : List Segment) (w1 : World),
      genDynLoop env w segs.enum [] = (w1, none) →
      generateDynamicBackgroundWithSegments env w dur bg segs = (w1, none) ∧
      w1.stagedWritten = w.stagedWritten ∧
      w1.finalBgWritten = w.finalBgWritten) ∧
    (∀ (env : Env) (w : World) (book : Book) (hash prompt : String)
      (w1 : World) (bg : String) (w2 : World),
      book.audioPath ≠ "" →
      w.fs.contains book.filePath = true →
      w.fs.contains book.audioPath = true →
      findCompletedByHash (backfillWorld w book hash).books
          (backfillBook book hash).contentHash = none →
      env.promptResult (backfillWorld w book hash).promptCalls =
          some prompt →
      generateSoundEffect env (bumpPromptCalls (backfillWorld w book hash))
          prompt none = (w1, some bg) →
      mergeAudio env w1 (backfillBook book hash).audioPath bg
          (backfillBook book hash) (backfillBook book hash).filePath hash =
          (w2, .err) →
      processSoundEffectsAndMerge env w book hash =
        (setFailed w2 book.id, .finished)) := by
  constructor
  · intro env w dur bg segs w1 hfail
    have hflags := genDynLoop_flags env segs.enum w []
    rw [hfail] at hflags
    refine ⟨?_, hflags.1, hflags.2⟩
    unfold generateDynamicBackgroundWithSegments
    rw [hfail]
  · intro env w book hash prompt w1 bg w2 ha hfile haud hdedup hprompt
      hmusic hmerge
    rw [orchestrator_reaches_synthesis env w book hash prompt w1 bg ha hfile
      haud hdedup hprompt hmusic]
    unfold runSynthesis
    rw [hmerge, backfillBook_id]

/-- World after the prompt and music steps of the failing scenario run. -/
def c6w1 : World :=
  { scenarioWorld with
    promptCalls := 1
    soundCalls := 1
    fs := "./audio/sound_effect.mp3" :: scenarioWorld.fs }

theorem backgroundFailure_aborts_entirely_witness :
    (generateDynamicBackgroundWithSegments segFailEnv scenarioWorld 10
        "./bg.mp3" [{ start := 0, stop := 10, mood := "neutral" }] =
        ({ scenarioWorld with ffmpegCalls := 1 }, none) ∧
      ({ scenarioWorld with ffmpegCalls := 1 } : World).stagedWritten =
        scenarioWorld.stagedWritten ∧
      ({ scenarioWorld with ffmpegCalls := 1 } : World).finalBgWritten =
        scenarioWorld.finalBgWritten) ∧
    processSoundEffectsAndMerge segFailEnv scenarioWorld scenarioBook1
        scenarioHash =
      (setFailed { c6w1 with ffmpegCalls := 1 } scenarioBook1.id,
        .finished) :=
  ⟨backgroundFailure_aborts_entirely.1 segFailEnv scenarioWorld 10 "./bg.mp3"
      [{ start := 0, stop := 10, mood := "neutral" }]
      { scenarioWorld with ffmpegCalls := 1 }
      (by simp [genDynLoop, List.enum, segFailEnv, happyEnv, scenarioWorld,
        show ¬((10 : ℚ) - 0 ≤ 0) from by norm_num]),
   backgroundFailure_aborts_entirely.2 segFailEnv scenarioWorld scenarioBook1
      scenarioHash "calm strings" c6w1 "./audio/sound_effect.mp3"
      { c6w1 with ffmpegCalls := 1 }
      (by decide) (by decide) (by decide) (by decide) (by decide) (by decide)
      (by simp [mergeAudio, segFailEnv, happyEnv, generateSegmentInstructions,
        fallbackSegments_ten, generateDynamicBackgroundWithSegments,
        genDynLoop, c6w1, scenarioWorld, scenarioBook1, scenarioHash,
        backfillBook, backfillWorld, bumpPromptCalls,
        show ¬((10 : ℚ) - 0 ≤ 0) from by norm_num,
        show ¬((10 : ℚ) ≤ 0) from by norm_num])⟩

/-! ## Claim C7 -/

theorem overlayLoop_nokey (env : Env) (henv : env.hasXIKey = false) :
    ∀ (l : List (String × List ℚ)) (w : World) (acc : List String),
      overlayLoop env w l acc =
        (w, acc.reverse ++ (l.filterMap fun p => alookup w.effectCache p.1)) := by
  intro l
  induction l with
  | nil =>
    intro w acc
    simp [overlayLoop]
  | cons hd t ih =>
    intro w acc
    obtain ⟨evt, times⟩ := hd
    cases hc : alookup w.effectCache evt with
    | some p =>
      simp only [overlayLoop, getOrGenerateEffect, hc]
      rw [ih]
      simp [hc]
    | none =>
      simp only [overlayLoop, getOrGenerateEffect, hc, generateSoundEffect,
        henv, Bool.not_false, if_true]
      rw [ih]
      simp [hc]

/-- **C7**: (a) for any event map, failure to obtain the clip of one event
type (here: the clip collaborator is unavailable and only that type misses
the cache) skips exactly that type — the final mix's inputs are the base
mix followed by the cached clips of all remaining types, each remaining
type still contributes its clip, and when the mix invocation succeeds the
stage still succeeds; (b) if the final multi-input mix invocation fails,
the stage returns an error and the orchestrator keeps the base mix as the
final audio with status `completed`, rather than failing the pipeline. -/
theorem overlayFailures_policy :
    (∀ (env : Env) (w : World) (baseMix : String) (book : Book)
      (pre post : List (String × List ℚ)) (t : String) (times : List ℚ),
      env.hasXIKey = false →
      8 ≤ book.contentHash.length →
      alookup w.effectCache t = none →
      (∀ p ∈ pre ++ post, (alookup w.effectCache p.1).isSome) →
      (overlaySoundEvents env w baseMix (pre ++ (t, times) :: post)
          book).1.mixInputs =
        baseMix :: ((pre ++ post).filterMap fun p =>
          alookup w.effectCache p.1) ∧
      (∀ p ∈ pre ++ post, ∀ clip, alookup w.effectCache p.1 = some clip →
        clip ∈ (overlaySoundEvents env w baseMix (pre ++ (t, times) :: post)
          book).1.mixInputs) ∧
      (env.ffmpegOutcome w.ffmpegCalls = true →
        ∃ out, (overlaySoundEvents env w baseMix (pre ++ (t, times) :: post)
          book).2 = .ok out)) ∧
    (∀ (env : Env) (w : World) (book : Book) (hash prompt : String)
      (w1 : World) (bg : String) (w2 : World) (baseMix : String)
      (events : List (String × List ℚ)) (w3 : World),
      book.audioPath ≠ "" →
      w.fs.contains book.filePath = true →
      w.fs.contains book.audioPath = true →
      findCompletedByHash (backfillWorld w book hash).books
          (backfillBook book hash).contentHash = none →
      env.promptResult (backfillWorld w book hash).promptCalls =
          some prompt →
      generateSoundEffect env (bumpPromptCalls (backfillWorld w book hash))
          prompt none = (w1, some bg) →
      mergeAudio env w1 (backfillBook book hash).audioPath bg
          (backfillBook book hash) (backfillBook book hash).filePath hash =
          (w2, .ok baseMix) →
      env.eventsResult = some events →
      overlaySoundEvents env w2 baseMix events (backfillBook book hash) =
          (w3, .err) →
      processSoundEffectsAndMerge env w book hash =
        (finishBook w3 book.id baseMix, .finished)) := by
  constructor
  · intro env w baseMix book pre post t times henv hlen hmiss hcached
    have hloop := overlayLoop_nokey env henv (pre ++ (t, times) :: post)
      { w with overlayCalls := w.overlayCalls + 1 } []
    have hfm : ((pre ++ (t, times) :: post).filterMap fun p =>
        alookup w.effectCache p.1) =
        ((pre ++ post).filterMap fun p => alookup w.effectCache p.1) := by
      simp [List.filterMap_append, hmiss]
    have hshape :
        (overlaySoundEvents env w baseMix (pre ++ (t, times) :: post)
          book).1.mixInputs =
        baseMix :: ((pre ++ post).filterMap fun p =>
          alookup w.effectCache p.1) ∧
        (env.ffmpegOutcome w.ffmpegCalls = true →
          ∃ out, (overlaySoundEvents env w baseMix (pre ++ (t, times) :: post)
            book).2 = .ok out) := by
      unfold overlaySoundEvents
      rw [if_neg (by omega)]
      rw [hloop]
      constructor
      · cases henc : env.ffmpegOutcome w.ffmpegCalls <;>
          simp [henc, hfm]
      · intro hmix
        exact ⟨"./final_with_fx_" ++ safeTitle book.title ++ "_" ++
          toString book.id ++ "_" ++ book.contentHash.take 8 ++ ".ogg",
          by simp [hmix, hfm]⟩
    refine ⟨hshape.1, ?_, hshape.2⟩
    intro p hp clip hclip
    rw [hshape.1]
    right
    exact List.mem_filterMap.mpr ⟨p, hp, hclip⟩
  · intro env w book hash prompt w1 bg w2 baseMix events w3 ha hfile haud
      hdedup hprompt hmusic hmerge hevents hoverlay
    rw [orchestrator_reaches_synthesis env w book hash prompt w1 bg ha hfile
      haud hdedup hprompt hmusic]
    unfold runSynthesis
    rw [hmerge]
    dsimp only
    rw [hevents]
    dsimp only
    rw [hoverlay, backfillBook_id]

def noKeyEnv : Env := { happyEnv with hasXIKey := false }

/-- World whose effect cache already holds the door-creak clip. -/
def cacheWorld : World :=
  { scenarioWorld with effectCache := [("door_creak", "./audio/door.mp3")] }

/-- Environment where event extraction yields an empty map and exactly the
first four compositing invocations succeed — the overlay's final mix (the
fifth invocation) fails. -/
def overlayMixFailEnv : Env :=
  { happyEnv with
    eventsResult := some []
    ffmpegOutcome := fun k => decide (k < 4) }

def c7baseMix : String :=
  "./merged_output_" ++ toString (1 : ℕ) ++ "_" ++ scenarioHash.take 8 ++
    ".ogg"

/-- World after prompt, music and base mix of the overlay-mix-failure
scenario. -/
def c7w2 : World :=
  { scenarioWorld with
    promptCalls := 1
    soundCalls := 1
    ffmpegCalls := 4
    stagedWritten := true
    finalBgWritten := true
    fs := c7baseMix :: "./dynamic_background_final.ogg" ::
      "./dynamic_bg_staged.ogg" :: "./dyn_list.txt" :: dynSegName 0 ::
      "./audio/sound_effect.mp3" :: scenarioWorld.fs }

/-- World after the failed overlay mix of that scenario. -/
def c7w3 : World :=
  { c7w2 with
    overlayCalls := 1
    ffmpegCalls := 5
    mixInputs := [c7baseMix] }

def c7pre : List (String × List ℚ) := [("door_creak", [1])]

def c7events : List (String × List ℚ) := c7pre ++ ("thunder", [2]) :: []

theorem overlayFailures_policy_witness :
    ((overlaySoundEvents noKeyEnv cacheWorld "./base.ogg" c7events
        scenarioBook1).1.mixInputs =
      "./base.ogg" :: ((c7pre ++ []).filterMap
        fun (p : String × List ℚ) => alookup cacheWorld.effectCache p.1) ∧
      (∀ p ∈ c7pre ++ ([] : List (String × List ℚ)),
        ∀ clip, alookup cacheWorld.effectCache p.1 = some clip →
        clip ∈ (overlaySoundEvents noKeyEnv cacheWorld "./base.ogg" c7events
          scenarioBook1).1.mixInputs) ∧
      (noKeyEnv.ffmpegOutcome cacheWorld.ffmpegCalls = true →
        ∃ out, (overlaySoundEvents noKeyEnv cacheWorld "./base.ogg" c7events
          scenarioBook1).2 = .ok out)) ∧
    processSoundEffectsAndMerge overlayMixFailEnv scenarioWorld scenarioBook1
        scenarioHash =
      (finishBook c7w3 scenarioBook1.id c7baseMix, .finished) :=
  ⟨overlayFailures_policy.1 noKeyEnv cacheWorld "./base.ogg" scenarioBook1
      c7pre [] "thunder" [2] rfl (by decide) (by decide)
      (by decide),
   overlayFailures_policy.2 overlayMixFailEnv scenarioWorld scenarioBook1
      scenarioHash "calm strings" c6w1 "./audio/sound_effect.mp3" c7w2
      c7baseMix [] c7w3
      (by decide) (by decide) (by decide) (by decide) (by decide) (by decide)
      (by simp [mergeAudio, overlayMixFailEnv, happyEnv,
        generateSegmentInstructions, fallbackSegments_ten,
        generateDynamicBackgroundWithSegments, genDynLoop, c6w1, c7w2,
        c7baseMix, dynSegName, scenarioWorld, scenarioBook1, scenarioHash,
        backfillBook, backfillWorld, bumpPromptCalls,
        show ¬((10 : ℚ) - 0 ≤ 0) from by norm_num,
        show ¬((10 : ℚ) ≤ 0) from by norm_num,
        show ¬("0123456789abcdef".length < 8) from by decide])
      rfl
      (by simp [overlaySoundEvents, overlayLoop, c7w2, c7w3, c7baseMix,
        overlayMixFailEnv, happyEnv, scenarioWorld, scenarioBook1,
        scenarioHash, backfillBook, dynSegName,
        show ¬("0123456789abcdef".length < 8) from by decide])⟩

/-! ## Claim C8 -/

theorem alookup_cons (k v k' : String) (l : List (String × String)) :
    alookup ((k, v) :: l) k' =
      if k == k' then some v else alookup l k' := by
  simp only [alookup, List.find?]
  cases h : (k == k') <;> simp [h]

/-- The world after `n` consecutive `getOrGenerateEffect` requests for one
event type. -/
def requestEffectTimes (env : Env) (t : String) : Nat → World → World
  | 0, w => w
  | n + 1, w => requestEffectTimes env t n (getOrGenerateEffect env w t).1

theorem requestEffectTimes_cached (env : Env) (t p : String) :
    ∀ (n : Nat) (w : World), alookup w.effectCache t = some p →
      requestEffectTimes env t n w = w := by
  intro n
  induction n with
  | zero => intro w _; rfl
  | succ m ih =>
    intro w hp
    have hstep : getOrGenerateEffect env w t = (w, some p) := by
      unfold getOrGenerateEffect
      rw [hp]
    unfold requestEffectTimes
    rw [hstep]
    exact ih w hp

/-- **C8**: a cached event type is answered from the cache with no state
change and no collaborator call; a first successful generation makes
exactly one collaborator call and stores the clip path; no request ever
disturbs another type's cache entry (the cache is never invalidated); and
any number `n ≥ 1` of consecutive requests for a type whose first
generation succeeds triggers exactly one collaborator call in total. -/
theorem effectCache_generates_once :
    (∀ (env : Env) (w : World) (t p : String),
      alookup w.effectCache t = some p →
      getOrGenerateEffect env w t = (w, some p)) ∧
    (∀ (env : Env) (w : World) (t : String),
      alookup w.effectCache t = none →
      env.hasXIKey = true →
      env.soundOutcome w.soundCalls = true →
      getOrGenerateEffect env w t =
        ({ w with
            soundCalls := w.soundCalls + 1
            fs := ("./audio/sound_effect_" ++ t ++ ".mp3") :: w.fs
            effectCache :=
              (t, "./audio/sound_effect_" ++ t ++ ".mp3") :: w.effectCache },
          some ("./audio/sound_effect_" ++ t ++ ".mp3"))) ∧
    (∀ (env : Env) (w : World) (t t' p : String),
      alookup w.effectCache t' = some p →
      alookup (getOrGenerateEffect env w t).1.effectCache t' = some p) ∧
    (∀ (env : Env) (w : World) (t : String) (n : Nat),
      1 ≤ n →
      alookup w.effectCache t = none →
      env.hasXIKey = true →
      env.soundOutcome w.soundCalls = true →
      (requestEffectTimes env t n w).soundCalls = w.soundCalls + 1) := by
  have hhit : ∀ (env : Env) (w : World) (t p : String),
      alookup w.effectCache t = some p →
      getOrGenerateEffect env w t = (w, some p) := by
    intro env w t p hp
    unfold getOrGenerateEffect
    rw [hp]
  have hmissgen : ∀ (env : Env) (w : World) (t : String),
      alookup w.effectCache t = none →
      env.hasXIKey = true →
      env.soundOutcome w.soundCalls = true →
      getOrGenerateEffect env w t =
        ({ w with
            soundCalls := w.soundCalls + 1
            fs := ("./audio/sound_effect_" ++ t ++ ".mp3") :: w.fs
            effectCache :=
              (t, "./audio/sound_effect_" ++ t ++ ".mp3") :: w.effectCache },
          some ("./audio/sound_effect_" ++ t ++ ".mp3")) := by
    intro env w t hmiss hkey hout
    simp [getOrGenerateEffect, generateSoundEffect, hmiss, hkey, hout]
  refine ⟨hhit, hmissgen, ?_, ?_⟩
  · intro env w t t' p hp
    by_cases hc : ∃ q, alookup w.effectCache t = some q
    · obtain ⟨q, hq⟩ := hc
      rw [hhit env w t q hq]
      exact hp
    · have hmiss : alookup w.effectCache t = none := by
        cases h : alookup w.effectCache t with
        | none => rfl
        | some q => exact absurd ⟨q, h⟩ hc
      have hne : (t == t') = false := by
        cases hbe : (t == t') with
        | false => rfl
        | true =>
          have : t = t' := by
            exact eq_of_beq hbe
          rw [this] at hmiss
          rw [hmiss] at hp
          exact Option.noConfusion hp
      simp only [getOrGenerateEffect, generateSoundEffect, hmiss]
      cases hkey : env.hasXIKey with
      | false => simpa using hp
      | true =>
        cases hout : env.soundOutcome w.soundCalls with
        | false => simpa using hp
        | true =>
          simp only [Bool.not_true, Bool.false_eq_true, if_false, if_true]
          rw [alookup_cons, if_neg (by simp [hne])]
          exact hp
  · intro env w t n hn hmiss hkey hout
    obtain ⟨m, rfl⟩ : ∃ m, n = m + 1 := ⟨n - 1, by omega⟩
    unfold requestEffectTimes
    rw [hmissgen env w t hmiss hkey hout]
    rw [requestEffectTimes_cached env t
      ("./audio/sound_effect_" ++ t ++ ".mp3") m _
      (by rw [alookup_cons, if_pos (by simp)])]

theorem effectCache_generates_once_witness :
    getOrGenerateEffect happyEnv cacheWorld "door_creak" =
      (cacheWorld, some "./audio/door.mp3") ∧
    getOrGenerateEffect happyEnv scenarioWorld "thunder" =
      ({ scenarioWorld with
          soundCalls := scenarioWorld.soundCalls + 1
          fs := ("./audio/sound_effect_" ++ "thunder" ++ ".mp3") ::
            scenarioWorld.fs
          effectCache :=
            ("thunder", "./audio/sound_effect_" ++ "thunder" ++ ".mp3") ::
              scenarioWorld.effectCache },
        some ("./audio/sound_effect_" ++ "thunder" ++ ".mp3")) ∧
    alookup (getOrGenerateEffect happyEnv cacheWorld "thunder").1.effectCache
      "door_creak" = some "./audio/door.mp3" ∧
    (requestEffectTimes happyEnv "thunder" 5 scenarioWorld).soundCalls =
      scenarioWorld.soundCalls + 1 :=
  ⟨effectCache_generates_once.1 happyEnv cacheWorld "door_creak"
      "./audio/door.mp3" (by decide),
   effectCache_generates_once.2.1 happyEnv scenarioWorld "thunder"
      (by decide) rfl rfl,
   effectCache_generates_once.2.2.1 happyEnv cacheWorld "thunder"
      "door_creak" "./audio/door.mp3" (by decide),
   effectCache_generates_once.2.2.2 happyEnv scenarioWorld "thunder" 5
      (by omega) (by decide) rfl rfl⟩

/-! ## Claim C10 -/

def bookEmptyHash : Book :=
  { id := 5, title := "epsilon", contentHash := "",
    filePath := "./books/5.txt", audioPath := "./audio/5.mp3",
    status := "pending" }

def worldEmptyHash : World :=
  { scenarioWorld with
    books := [bookEmptyHash]
    fs := ["./books/5.txt", "./audio/5.mp3"] }

def bookShortHash : Book :=
  { id := 6, title := "zeta", contentHash := "ab",
    filePath := "./books/6.txt", audioPath := "./audio/6.mp3",
    status := "pending" }

def worldShortHash : World :=
  { scenarioWorld with
    books := [bookShortHash]
    fs := ["./books/6.txt", "./audio/6.mp3"] }

/-- Like `happyEnv`, but event extraction succeeds with an empty event
map, so the orchestrator reaches `overlaySoundEvents`. -/
def shortHashEnv : Env := { happyEnv with eventsResult := some [] }

/-- **C10** counterexample: with an empty content hash and an empty `hash`
argument (so no backfill happens and only a warning would be logged), the
run aborts — but inside `mergeAudio`'s own `hash[:8]` slice, before
`overlaySoundEvents` is ever invoked: the overlay-entry counter stays 0,
refuting the claim that the orchestrator reaches the overlay call with an
empty content hash. -/
theorem emptyHash_panics_before_overlay :
    (processSoundEffectsAndMerge happyEnv worldEmptyHash bookEmptyHash
        "").2 = .panicked ∧
    (processSoundEffectsAndMerge happyEnv worldEmptyHash bookEmptyHash
        "").1.overlayCalls = 0 := by
  simp [processSoundEffectsAndMerge, backfillBook, backfillWorld,
    runSynthesis, mergeAudio, generateSegmentInstructions,
    fallbackSegments_ten, generateDynamicBackgroundWithSegments, genDynLoop,
    generateSoundEffect, bumpPromptCalls, happyEnv, worldEmptyHash,
    bookEmptyHash, scenarioWorld, findCompletedByHash, setFailed, finishBook,
    cleanupTempFiles, setCompleted, setReusedFrom, setContentHash,
    updateBook, updateBookStatus, dynSegName, matchesDynSegGlob,
    show ¬((10 : ℚ) - 0 ≤ 0) from by norm_num,
    show ¬((10 : ℚ) ≤ 0) from by norm_num,
    show ("" : String).length < 8 from by decide]

/-- **C10** (amended): `overlaySoundEvents` panics exactly when the book's
content hash is shorter than 8 bytes and never panics otherwise; the
orchestrator does reach the overlay with a nonempty content hash shorter
than 8 bytes (here two bytes) and then aborts inside the overlay; with an
empty content hash the abort happens earlier, in `mergeAudio`'s own
`hash[:8]`, so either way some reachable input aborts. -/
theorem overlay_hash_slice_partiality :
    (∀ (env : Env) (w : World) (baseMix : String)
      (events : List (String × List ℚ)) (book : Book),
      (book.contentHash.length < 8 →
        overlaySoundEvents env w baseMix events book =
          ({ w with overlayCalls := w.overlayCalls + 1 }, .panicked)) ∧
      (8 ≤ book.contentHash.length →
        (overlaySoundEvents env w baseMix events book).2 ≠ .panicked)) ∧
    ((processSoundEffectsAndMerge shortHashEnv worldShortHash bookShortHash
        scenarioHash).2 = .panicked ∧
      (processSoundEffectsAndMerge shortHashEnv worldShortHash bookShortHash
        scenarioHash).1.overlayCalls = 1) := by
  constructor
  · intro env w baseMix events book
    constructor
    · intro hlt
      unfold overlaySoundEvents
      rw [if_pos hlt]
    · intro h8
      unfold overlaySoundEvents
      rw [if_neg (not_lt.mpr h8)]
      rcases hl : overlayLoop env
          { w with overlayCalls := w.overlayCalls + 1 } events [] with
        ⟨w1, inputs⟩
      dsimp only
      split <;> simp
  · simp [processSoundEffectsAndMerge, backfillBook, backfillWorld,
      runSynthesis, mergeAudio, generateSegmentInstructions,
      fallbackSegments_ten, generateDynamicBackgroundWithSegments,
      genDynLoop, generateSoundEffect, bumpPromptCalls, overlaySoundEvents,
      shortHashEnv, happyEnv, worldShortHash, bookShortHash, scenarioWorld,
      scenarioHash, findCompletedByHash, setFailed, finishBook,
      cleanupTempFiles, setCompleted, setReusedFrom, setContentHash,
      updateBook, updateBookStatus, dynSegName, matchesDynSegGlob,
      show ¬((10 : ℚ) - 0 ≤ 0) from by norm_num,
      show ¬((10 : ℚ) ≤ 0) from by norm_num,
      show ¬("0123456789abcdef".length < 8) from by decide,
      show ("ab" : String).length < 8 from by decide]

theorem overlay_hash_slice_partiality_witness :
    overlaySoundEvents happyEnv scenarioWorld "./base.ogg" [] bookShortHash =
      ({ scenarioWorld with
          overlayCalls := scenarioWorld.overlayCalls + 1 }, .panicked) ∧
    (overlaySoundEvents happyEnv scenarioWorld "./base.ogg" []
      scenarioBook1).2 ≠ .panicked :=
  ⟨(overlay_hash_slice_partiality.1 happyEnv scenarioWorld "./base.ogg" []
      bookShortHash).1 (by decide),
   (overlay_hash_slice_partiality.1 happyEnv scenarioWorld "./base.ogg" []
      scenarioBook1).2 (by decide)⟩

/-! ## Claim C1: Chunk-Group Resolver and Dedup Store -/

/-- Go struct `BookChunk` (src/unnamed/part_001 lines 281-293), restricted
to the fields `processMergedChunks` reads. -/
structure BookChunk where
  id : Nat
  bookId : Nat
  index : Int
  content : String
  audioPath : String
deriving Repr, DecidableEq

/-- A `ProcessedChunkGroup` record: key (book, startIndex, endIndex) →
merged audio path (spec §3). -/
structure ProcessedChunkGroup where
  bookId : Nat
  startIndex : Int
  endIndex : Int
  audioPath : String
deriving Repr, DecidableEq

/-- Modelled from the spec: `checkIfChunkGroupProcessed` is code of this
repository that is not under `src/` (only its callers in
`src/chunk_merger.go` and `src/streamByChunkIds.go` are).  Spec §4.1
Dedup Store: `lookupByRange(book, start, end) → artifact?` over the
durable ProcessedChunkGroup records; a hit must be reused. -/
def checkIfChunkGroupProcessed (groups : List ProcessedChunkGroup)
    (bookID : Nat) (s e : Int) : Option String :=
  (groups.find? fun g =>
    g.bookId == bookID && g.startIndex == s && g.endIndex == e).map
    ProcessedChunkGroup.audioPath

/-- Modelled from the spec: `saveProcessedChunkGroup` is code of this
repository that is not under `src/`.  Spec §3/§4.2: writes the merged
artifact's record under the key (book, startIndex, endIndex); "created
once, effectively immutable" — modelled as appending one durable
record. -/
def saveProcessedChunkGroup (groups : List ProcessedChunkGroup)
    (bookID : Nat) (s e : Int) (path : String) : List ProcessedChunkGroup :=
  groups ++ [{ bookId := bookID, startIndex := s, endIndex := e,
               audioPath := path }]

/-- Oracles of `processMergedChunks`: the Unix timestamp used in the audio
list file's name, and the outcomes of the merged-text write, the list-file
creation and each compositing invocation. -/
structure MergeEnv where
  now : Nat
  writeTextOk : Bool
  listCreateOk : Bool
  ffmpegOutcome : Nat → Bool

/-- Mutable state of the Chunk-Group Resolver: the durable
ProcessedChunkGroup table, the file store (paths only — file contents are
not claim-relevant), the compositing-invocation counter, and the
orchestrator goroutines spawned via `go processSoundEffectsAndMerge`
(recorded, not executed — they run asynchronously). -/
structure MergeWorld where
  groups : List ProcessedChunkGroup
  fs : List String
  ffmpegCalls : Nat
  spawned : List Book
deriving Repr, DecidableEq

def chunkTextPath (bookID : Nat) (s e : Int) : String :=
  "./audio/book_" ++ toString bookID ++ "_chunks_" ++ toString s ++ "_" ++
    toString e ++ ".txt"

def chunkAudioPath (bookID : Nat) (s e : Int) : String :=
  "./audio/book_" ++ toString bookID ++ "_chunks_" ++ toString s ++ "_" ++
    toString e ++ ".mp3"

/-- The temporary `Book` struct handed to `go processSoundEffectsAndMerge`
(src/chunk_merger.go lines 64-70): only id, text path and audio path are
populated. -/
def spawnedBook (bookID : Nat) (textFile mergedAudio : String) : Book :=
  { id := bookID
    title := ""
    contentHash := ""
    filePath := textFile
    audioPath := mergedAudio
    status := "" }

/-- `processMergedChunks` (src/chunk_merger.go lines 14-78).  The fetched
chunks (already ordered by index, as `db...Order("index").Find` returns
them) are the input; an empty fetch is the "no chunks found" error.  The
group key derives from the first and last chunk's indexes.  A Dedup Store
hit returns immediately; the model's result payload `some path` records
the reused artifact that the Go code logs (the Go function itself returns
only `error`).  Otherwise the merged text and the concat list are written
(either write can fail), one compositing invocation concatenates the
`.mp3` chunk audio, the orchestrator goroutine is spawned, and the group
record is saved. -/
def processMergedChunks (env : MergeEnv) (w : MergeWorld) (bookID : Nat)
    (chunks : List BookChunk) : MergeWorld × GoResult (Option String) :=
  match chunks with
  | [] => (w, .err)
  | c0 :: rest =>
    let startIdx := c0.index
    let endIdx := (List.getLast (c0 :: rest) (by simp)).index
    match checkIfChunkGroupProcessed w.groups bookID startIdx endIdx with
    | some existingPath => (w, .ok (some existingPath))
    | none =>
      if !env.writeTextOk then (w, .err)
      else
        let textFile := chunkTextPath bookID startIdx endIdx
        let w1 := { w with fs := textFile :: w.fs }
        if !env.listCreateOk then (w1, .err)
        else
          let listFile := "./audio/audio_list_" ++ toString env.now ++ ".txt"
          let w2 := { w1 with fs := listFile :: w1.fs }
          let k := w2.ffmpegCalls
          let w3 := { w2 with ffmpegCalls := k + 1 }
          if env.ffmpegOutcome k then
            let mergedAudio := chunkAudioPath bookID startIdx endIdx
            let w4 := { w3 with fs := mergedAudio :: w3.fs }
            let book := spawnedBook bookID textFile mergedAudio
            let w5 := { w4 with spawned := book :: w4.spawned }
            let gs := saveProcessedChunkGroup w5.groups bookID startIdx endIdx mergedAudio
            ({ w5 with groups := gs }, .ok none)
          else (w3, .err)

theorem checkIfChunkGroupProcessed_save (groups : List ProcessedChunkGroup)
    (bookID : Nat) (s e : Int) (path : String)
    (h : checkIfChunkGroupProcessed groups bookID s e = none) :
    checkIfChunkGroupProcessed
      (saveProcessedChunkGroup groups bookID s e path) bookID s e =
      some path := by
  induction groups with
  | nil =>
    simp [checkIfChunkGroupProcessed, saveProcessedChunkGroup, List.find?]
  | cons g t ih =>
    simp only [checkIfChunkGroupProcessed, saveProcessedChunkGroup,
      List.cons_append, List.find?] at h ⊢
    cases hg : (g.bookId == bookID && g.startIndex == s && g.endIndex == e)
    · rw [hg] at h
      exact ih h
    · rw [hg] at h
      simp at h

/-- The world after one successful first processing of the group
(book, s, e): the text, list and merged-audio files written, one
compositing invocation consumed, the orchestrator goroutine spawned, and
the ProcessedChunkGroup record saved. -/
def mergedWorldAfter (env : MergeEnv) (w : MergeWorld) (bookID : Nat)
    (s e : Int) : MergeWorld :=
  { groups := saveProcessedChunkGroup w.groups bookID s e
      (chunkAudioPath bookID s e)
    fs := chunkAudioPath bookID s e ::
      ("./audio/audio_list_" ++ toString env.now ++ ".txt") ::
      chunkTextPath bookID s e :: w.fs
    ffmpegCalls := w.ffmpegCalls + 1
    spawned := spawnedBook bookID (chunkTextPath bookID s e)
      (chunkAudioPath bookID s e) :: w.spawned }

/-- **C1**: for a valid (book, startIndex, endIndex) chunk group whose
first processing succeeds, requesting the same group a second time is a
pure Dedup Store lookup: the second call returns exactly the artifact
recorded by the first run, leaves the world unchanged, and performs no
text/audio merging and no compositing invocation. -/
theorem processMergedChunks_reuses_artifact (env env2 : MergeEnv)
    (w : MergeWorld) (bookID : Nat) (c0 : BookChunk) (rest : List BookChunk)
    (hmiss : checkIfChunkGroupProcessed w.groups bookID c0.index
        (List.getLast (c0 :: rest) (by simp)).index = none)
    (hwrite : env.writeTextOk = true)
    (hlist : env.listCreateOk = true)
    (hff : env.ffmpegOutcome w.ffmpegCalls = true) :
    processMergedChunks env w bookID (c0 :: rest) =
      (mergedWorldAfter env w bookID c0.index
        (List.getLast (c0 :: rest) (by simp)).index, .ok none) ∧
    (mergedWorldAfter env w bookID c0.index
        (List.getLast (c0 :: rest) (by simp)).index).ffmpegCalls =
      w.ffmpegCalls + 1 ∧
    processMergedChunks env2
        (mergedWorldAfter env w bookID c0.index
          (List.getLast (c0 :: rest) (by simp)).index) bookID (c0 :: rest) =
      (mergedWorldAfter env w bookID c0.index
          (List.getLast (c0 :: rest) (by simp)).index,
        .ok (some (chunkAudioPath bookID c0.index
          (List.getLast (c0 :: rest) (by simp)).index))) := by
  refine ⟨?_, rfl, ?_⟩
  · simp only [processMergedChunks]
    rw [hmiss, hwrite, hlist, hff]
    rfl
  · simp only [processMergedChunks]
    rw [show checkIfChunkGroupProcessed
        (mergedWorldAfter env w bookID c0.index
          (List.getLast (c0 :: rest) (by simp)).index).groups bookID c0.index
        (List.getLast (c0 :: rest) (by simp)).index =
        some (chunkAudioPath bookID c0.index
          (List.getLast (c0 :: rest) (by simp)).index) from
      checkIfChunkGroupProcessed_save w.groups bookID c0.index
        (List.getLast (c0 :: rest) (by simp)).index
        (chunkAudioPath bookID c0.index
          (List.getLast (c0 :: rest) (by simp)).index) hmiss]

theorem processMergedChunks_reuses_artifact_witness :
    processMergedChunks ⟨1700000000, true, true, fun _ => true⟩
        ⟨[], [], 0, []⟩ 1
        [⟨11, 1, 3, "first", "./audio/c3.mp3"⟩,
         ⟨12, 1, 4, "second", "./audio/c4.mp3"⟩] =
      (mergedWorldAfter ⟨1700000000, true, true, fun _ => true⟩
        ⟨[], [], 0, []⟩ 1 3 4, .ok none) ∧
    (mergedWorldAfter ⟨1700000000, true, true, fun _ => true⟩
        ⟨[], [], 0, []⟩ 1 3 4).ffmpegCalls =
      (⟨[], [], 0, []⟩ : MergeWorld).ffmpegCalls + 1 ∧
    processMergedChunks ⟨1700000001, false, false, fun _ => false⟩
        (mergedWorldAfter ⟨1700000000, true, true, fun _ => true⟩
          ⟨[], [], 0, []⟩ 1 3 4) 1
        [⟨11, 1, 3, "first", "./audio/c3.mp3"⟩,
         ⟨12, 1, 4, "second", "./audio/c4.mp3"⟩] =
      (mergedWorldAfter ⟨1700000000, true, true, fun _ => true⟩
          ⟨[], [], 0, []⟩ 1 3 4,
        .ok (some (chunkAudioPath 1 3 4))) :=
  processMergedChunks_reuses_artifact
    ⟨1700000000, true, true, fun _ => true⟩
    ⟨1700000001, false, false, fun _ => false⟩
    ⟨[], [], 0, []⟩ 1 ⟨11, 1, 3, "first", "./audio/c3.mp3"⟩
    [⟨12, 1, 4, "second", "./audio/c4.mp3"⟩]
    (by decide) rfl rfl rfl

/-! ## Claim C9: Job Queue worker -/

/-- Go struct `TTSQueueJob` (src/unnamed/part_001 lines 295-302). -/
structure TTSQueueJob where
  id : Nat
  bookId : Nat
  chunkIDs : String
  status : String
  createdAt : Nat
deriving Repr, DecidableEq

/-- One fold step of the earliest-created selection (ties keep the earlier
table row). -/
def minStep (acc : Option TTSQueueJob) (j : TTSQueueJob) :
    Option TTSQueueJob :=
  match acc with
  | none => some j
  | some k => if j.createdAt < k.createdAt then some j else some k

/-- `db.Where("status = ?", "queued").Order("created_at").First(&job)`
(src/streamByChunkIds.go line 93): the earliest-created job among those
with status `queued`; `none` models `job.ID == 0` (nothing found). -/
def selectQueuedJob (jobs : List TTSQueueJob) : Option TTSQueueJob :=
  (jobs.filter fun j => j.status == "queued").foldl minStep none

/-- `db.Model(&job).Update("status", s)`: set the status of the row(s)
with this primary key. -/
def updateJobStatus (jobs : List TTSQueueJob) (id : Nat) (s : String) :
    List TTSQueueJob :=
  jobs.map fun j => if j.id = id then { j with status := s } else j

/-- One iteration of the `startTTSWorker` loop (src/streamByChunkIds.go
lines 91-107): select the oldest queued job (if none, the iteration
sleeps and changes nothing), mark it `processing`, run
`processMergedChunks` — its success is the oracle `outcome` — and mark
`complete` or `failed`. -/
def workerStep (jobs : List TTSQueueJob) (outcome : Bool) :
    List TTSQueueJob :=
  match selectQueuedJob jobs with
  | none => jobs
  | some job =>
    let jobs1 := updateJobStatus jobs job.id "processing"
    updateJobStatus jobs1 job.id (if outcome then "complete" else "failed")

/-- `n` iterations of the worker loop, with per-iteration outcomes. -/
def workerRun (outcomes : Nat → Bool) : Nat → List TTSQueueJob →
    List TTSQueueJob
  | 0, jobs => jobs
  | n + 1, jobs => workerRun outcomes n (workerStep jobs (outcomes n))

/-- The forward order on job statuses: `queued → processing →
{complete, failed}`; every other move (and any move out of a terminal or
unknown status) is forbidden. -/
def statusLe (a b : String) : Prop :=
  a = b ∨
  (a = "queued" ∧ (b = "processing" ∨ b = "complete" ∨ b = "failed")) ∨
  (a = "processing" ∧ (b = "complete" ∨ b = "failed"))

/-- Jobs related by one or more worker transitions: the identity, payload
and creation time are untouched and the status only moves forward. -/
def jobStep (a b : TTSQueueJob) : Prop :=
  a.id = b.id ∧ a.bookId = b.bookId ∧ a.chunkIDs = b.chunkIDs ∧
  a.createdAt = b.createdAt ∧ statusLe a.status b.status

theorem statusLe_refl (a : String) : statusLe a a := Or.inl rfl

theorem jobStep_refl (a : TTSQueueJob) : jobStep a a :=
  ⟨rfl, rfl, rfl, rfl, statusLe_refl _⟩

theorem statusLe_trans (a b c : String) (h1 : statusLe a b)
    (h2 : statusLe b c) : statusLe a c := by
  rcases h1 with rfl | ⟨ha, hb⟩ | ⟨ha, hb⟩
  · exact h2
  · rcases h2 with rfl | ⟨hb', hc⟩ | ⟨hb', hc⟩
    · exact Or.inr (Or.inl ⟨ha, hb⟩)
    · rcases hb with rfl | rfl | rfl <;> simp_all
    · rcases hb with rfl | rfl | rfl <;> simp_all [statusLe]
  · rcases h2 with rfl | ⟨hb', hc⟩ | ⟨hb', hc⟩
    · exact Or.inr (Or.inr ⟨ha, hb⟩)
    · rcases hb with rfl | rfl <;> simp_all
    · rcases hb with rfl | rfl <;> simp_all

theorem jobStep_trans (a b c : TTSQueueJob) (h1 : jobStep a b)
    (h2 : jobStep b c) : jobStep a c :=
  ⟨h1.1.trans h2.1, h1.2.1.trans h2.2.1, h1.2.2.1.trans h2.2.2.1,
   h1.2.2.2.1.trans h2.2.2.2.1,
   statusLe_trans _ _ _ h1.2.2.2.2 h2.2.2.2.2⟩

theorem forall₂_jobStep_refl (l : List TTSQueueJob) :
    List.Forall₂ jobStep l l := by
  induction l with
  | nil => exact List.Forall₂.nil
  | cons a t ih => exact List.Forall₂.cons (jobStep_refl a) ih

theorem foldl_minStep_mem :
    ∀ (l : List TTSQueueJob) (acc : Option TTSQueueJob) (m : TTSQueueJob),
      l.foldl minStep acc = some m → m ∈ l ∨ acc = some m := by
  intro l
  induction l with
  | nil =>
    intro acc m h
    exact Or.inr h
  | cons j t ih =>
    intro acc m h
    rcases ih (minStep acc j) m h with hm | hm
    · exact Or.inl (List.mem_cons_of_mem j hm)
    · cases acc with
      | none =>
        left
        cases hm
        exact List.mem_cons_self j t
      | some k =>
        simp only [minStep] at hm
        split at hm
        · left
          cases hm
          exact List.mem_cons_self j t
        · exact Or.inr hm

theorem foldl_minStep_le :
    ∀ (l : List TTSQueueJob) (acc : Option TTSQueueJob) (m : TTSQueueJob),
      l.foldl minStep acc = some m →
      (∀ j ∈ l, m.createdAt ≤ j.createdAt) ∧
      (∀ a, acc = some a → m.createdAt ≤ a.createdAt) := by
  intro l
  induction l with
  | nil =>
    intro acc m h
    refine ⟨by simp, ?_⟩
    intro a ha
    rw [ha] at h
    cases h
    exact le_refl _
  | cons j t ih =>
    intro acc m h
    obtain ⟨hall, hacc⟩ := ih (minStep acc j) m h
    have hj : m.createdAt ≤ j.createdAt := by
      cases acc with
      | none => exact hacc j rfl
      | some k =>
        simp only [minStep] at hacc
        by_cases hlt : j.createdAt < k.createdAt
        · exact hacc j (by simp [hlt])
        · exact le_trans (hacc k (by simp [hlt])) (not_lt.mp hlt)
    refine ⟨?_, ?_⟩
    · intro x hx
      rcases List.mem_cons.mp hx with rfl | hx
      · exact hj
      · exact hall x hx
    · intro a ha
      cases acc with
      | none => cases ha
      | some k =>
        cases ha
        simp only [minStep] at hacc
        by_cases hlt : j.createdAt < a.createdAt
        · exact le_trans (hacc j (by simp [hlt])) (le_of_lt hlt)
        · exact hacc a (by simp [hlt])

theorem selectQueuedJob_spec (jobs : List TTSQueueJob) (job : TTSQueueJob)
    (h : selectQueuedJob jobs = some job) :
    job ∈ jobs ∧ job.status = "queued" ∧
    ∀ j ∈ jobs, j.status = "queued" → job.createdAt ≤ j.createdAt := by
  have hmem : job ∈ jobs.filter (fun j => j.status == "queued") := by
    rcases foldl_minStep_mem _ none job h with hm | hm
    · exact hm
    · cases hm
  have hmem' := List.mem_filter.mp hmem
  refine ⟨hmem'.1, by simpa using hmem'.2, ?_⟩
  intro j hj hjq
  exact (foldl_minStep_le _ none job h).1 j
    (List.mem_filter.mpr ⟨hj, by simp [hjq]⟩)

theorem updateStatus_forall₂ (jobs : List TTSQueueJob) (id : Nat)
    (s : String) (h : ∀ j ∈ jobs, j.id = id → statusLe j.status s) :
    List.Forall₂ jobStep jobs (updateJobStatus jobs id s) := by
  unfold updateJobStatus
  rw [List.forall₂_map_right_iff, List.forall₂_same]
  intro j hj
  by_cases hid : j.id = id
  · rw [if_pos hid]
    exact ⟨rfl, rfl, rfl, rfl, h j hj hid⟩
  · rw [if_neg hid]
    exact jobStep_refl j

theorem mem_of_id_unique (jobs : List TTSQueueJob)
    (hunique : jobs.Pairwise fun a b => a.id ≠ b.id)
    (a b : TTSQueueJob) (ha : a ∈ jobs) (hb : b ∈ jobs)
    (hid : a.id = b.id) : a = b := by
  by_cases hab : a = b
  · exact hab
  · exact absurd hid (List.Pairwise.forall
      (fun x y hxy => (hxy ∘ Eq.symm : y.id ≠ x.id)) hunique ha hb hab)

theorem updateJobStatus_id (jobs : List TTSQueueJob) (id : Nat) (s : String)
    (j : TTSQueueJob) (hj : j ∈ updateJobStatus jobs id s) (hid : j.id = id) :
    j.status = s := by
  obtain ⟨x, _, rfl⟩ := List.mem_map.mp hj
  by_cases hx : x.id = id
  · simp [hx]
  · rw [if_neg hx] at hid
    exact absurd hid hx

theorem workerStep_stages (jobs : List TTSQueueJob) (outcome : Bool)
    (job : TTSQueueJob)
    (hunique : jobs.Pairwise fun a b => a.id ≠ b.id)
    (hsel : selectQueuedJob jobs = some job) :
    List.Forall₂ jobStep jobs (updateJobStatus jobs job.id "processing") ∧
    List.Forall₂ jobStep (updateJobStatus jobs job.id "processing")
      (workerStep jobs outcome) := by
  obtain ⟨hmem, hq, _⟩ := selectQueuedJob_spec jobs job hsel
  constructor
  · apply updateStatus_forall₂
    intro j hj hid
    have : j = job := mem_of_id_unique jobs hunique j job hj hmem hid
    subst this
    rw [hq]
    exact Or.inr (Or.inl ⟨rfl, Or.inl rfl⟩)
  · unfold workerStep
    rw [hsel]
    apply updateStatus_forall₂
    intro j hj hid
    rw [updateJobStatus_id jobs job.id "processing" j hj hid]
    cases outcome <;> simp [statusLe]

theorem workerStep_pairwise (jobs : List TTSQueueJob) (outcome : Bool)
    (hunique : jobs.Pairwise fun a b => a.id ≠ b.id) :
    (workerStep jobs outcome).Pairwise fun a b => a.id ≠ b.id := by
  have hupd : ∀ (id : Nat) (s : String) (l : List TTSQueueJob),
      (l.Pairwise fun a b => a.id ≠ b.id) →
      (updateJobStatus l id s).Pairwise fun a b => a.id ≠ b.id := by
    intro id s l hl
    unfold updateJobStatus
    rw [List.pairwise_map]
    refine hl.imp ?_
    intro a b hab
    by_cases ha : a.id = id <;> by_cases hb : b.id = id <;> simp_all
  unfold workerStep
  cases hsel : selectQueuedJob jobs with
  | none => exact hunique
  | some job => exact hupd _ _ _ (hupd _ _ _ hunique)

theorem forall₂_jobStep_trans :
    ∀ {l1 l2 l3 : List TTSQueueJob}, List.Forall₂ jobStep l1 l2 →
      List.Forall₂ jobStep l2 l3 → List.Forall₂ jobStep l1 l3 := by
  intro l1 l2 l3 h1
  induction h1 generalizing l3 with
  | nil =>
    intro h2
    cases h2
    exact List.Forall₂.nil
  | cons hab h ih =>
    intro h2
    cases h2 with
    | cons hbc h' =>
      exact List.Forall₂.cons (jobStep_trans _ _ _ hab hbc) (ih h')

theorem workerRun_forall₂ (outcomes : Nat → Bool) :
    ∀ (n : Nat) (jobs : List TTSQueueJob),
      (jobs.Pairwise fun a b => a.id ≠ b.id) →
      List.Forall₂ jobStep jobs (workerRun outcomes n jobs) := by
  intro n
  induction n with
  | zero =>
    intro jobs _
    exact forall₂_jobStep_refl jobs
  | succ m ih =>
    intro jobs hunique
    unfold workerRun
    have hstep : List.Forall₂ jobStep jobs (workerStep jobs (outcomes m)) := by
      unfold workerStep
      cases hsel : selectQueuedJob jobs with
      | none => exact forall₂_jobStep_refl jobs
      | some job =>
        have := workerStep_stages jobs (outcomes m) job hunique hsel
        refine forall₂_jobStep_trans this.1 ?_
        have h2 := this.2
        unfold workerStep at h2
        rw [hsel] at h2
        exact h2
    exact forall₂_jobStep_trans hstep
      (ih _ (workerStep_pairwise jobs (outcomes m) hunique))

/-- **C9**: the worker always selects the earliest-created job among those
with status `queued`; one iteration moves only that job's status, first to
`processing` and then to `complete` or `failed`; over any number of
iterations every job's identity, payload and creation time are preserved
and its status only moves forward along
`queued → processing → {complete, failed}`; and the forward order admits
no move back to `queued` or `processing` and no leaving `failed` or
`complete` (so no failed job is ever retried). -/
theorem worker_fifo_and_forward :
    (∀ (jobs : List TTSQueueJob) (job : TTSQueueJob),
      selectQueuedJob jobs = some job →
      job ∈ jobs ∧ job.status = "queued" ∧
      ∀ j ∈ jobs, j.status = "queued" → job.createdAt ≤ j.createdAt) ∧
    (∀ (jobs : List TTSQueueJob) (outcome : Bool) (job : TTSQueueJob),
      (jobs.Pairwise fun a b => a.id ≠ b.id) →
      selectQueuedJob jobs = some job →
      List.Forall₂ jobStep jobs
        (updateJobStatus jobs job.id "processing") ∧
      List.Forall₂ jobStep (updateJobStatus jobs job.id "processing")
        (workerStep jobs outcome)) ∧
    (∀ (outcomes : Nat → Bool) (n : Nat) (jobs : List TTSQueueJob),
      (jobs.Pairwise fun a b => a.id ≠ b.id) →
      List.Forall₂ jobStep jobs (workerRun outcomes n jobs)) ∧
    (∀ a b : String, statusLe a b →
      (a = "failed" → b = "failed") ∧ (a = "complete" → b = "complete") ∧
      (b = "queued" → a = "queued") ∧
      (b = "processing" → a = "queued" ∨ a = "processing")) := by
  refine ⟨selectQueuedJob_spec, ?_, workerRun_forall₂, ?_⟩
  · intro jobs outcome job hunique hsel
    exact workerStep_stages jobs outcome job hunique hsel
  · intro a b h
    rcases h with rfl | ⟨rfl, hb⟩ | ⟨rfl, hb⟩
    · exact ⟨fun h => h, fun h => h, fun h => h, fun h => Or.inr h⟩
    · rcases hb with rfl | rfl | rfl <;>
        exact ⟨by simp, by simp, by simp, by simp⟩
    · rcases hb with rfl | rfl <;>
        exact ⟨by simp, by simp, by simp, by simp⟩

/-- A concrete queue: one complete, one failed and two queued jobs, the
younger queued row created earlier. -/
def c9jobs : List TTSQueueJob :=
  [⟨1, 1, "1,2", "complete", 5⟩, ⟨2, 1, "3", "queued", 7⟩,
   ⟨3, 2, "4", "queued", 6⟩, ⟨4, 2, "5", "failed", 1⟩]

def c9selected : TTSQueueJob := ⟨3, 2, "4", "queued", 6⟩

theorem worker_fifo_and_forward_witness :
    (c9selected ∈ c9jobs ∧ c9selected.status = "queued" ∧
      ∀ j ∈ c9jobs, j.status = "queued" →
        c9selected.createdAt ≤ j.createdAt) ∧
    (List.Forall₂ jobStep c9jobs
        (updateJobStatus c9jobs c9selected.id "processing") ∧
      List.Forall₂ jobStep
        (updateJobStatus c9jobs c9selected.id "processing")
        (workerStep c9jobs true)) ∧
    List.Forall₂ jobStep c9jobs (workerRun (fun _ => false) 3 c9jobs) ∧
    ((("queued" : String) = "failed" → ("failed" : String) = "failed") ∧
      (("queued" : String) = "complete" → ("failed" : String) = "complete") ∧
      (("failed" : String) = "queued" → ("queued" : String) = "queued") ∧
      (("failed" : String) = "processing" →
        ("queued" : String) = "queued" ∨ ("queued" : String) = "processing")) :=
  ⟨worker_fifo_and_forward.1 c9jobs c9selected (by decide),
   worker_fifo_and_forward.2.1 c9jobs true c9selected (by decide) (by decide),
   worker_fifo_and_forward.2.2.1 (fun _ => false) 3 c9jobs (by decide),
   worker_fifo_and_forward.2.2.2 "queued" "failed"
     (Or.inr (Or.inl ⟨rfl, Or.inr (Or.inr rfl)⟩))⟩

end ContentService